import Mathlib

/-!
Verification of the Celeste-map exit-node analysis pipeline.

This file gives a shallow embedding, in Lean 4, of the core logic of the
repository (src/risk_engine.py, src/geo_analyzer.py, src/data_processor.py,
src/utils.py) and proves or refutes the frozen specification claims about it.

Modelling conventions:
* Python floats are modelled as exact rationals.  Every weight, threshold and
  coordinate appearing in the code is exactly representable in binary floating
  point, and the scores the engine can produce are multiples of 1/2, so the
  rational model is exact on the scoring path.
* Python `round(x, n)` uses round-half-to-even; `bankersRound` models it on
  exact rationals.
* Optional values are Option; Python truthiness (None, 0, 0.0 and "" are
  falsy) is modelled by explicit truthiness predicates.
* The network is modelled by an oracle `api : String → Option IpData` giving
  the combined result of the ipinfo/free-api lookup chain for an ip
  (lines 157-164 of geo_analyzer.py); None models total lookup failure.
-/

namespace Celeste

/-! ## Small string helpers (Python semantics) -/

/-- Model of the list relation needed for the Python substring test:
does the second list start with the first one. -/
def charsStartWith : List Char → List Char → Bool
  | [], _ => true
  | _ :: _, [] => false
  | a :: as, b :: bs => a = b && charsStartWith as bs

/-- Model of the Python substring containment test
(the expression `needle in hay`): the needle occurs contiguously in the
haystack. -/
def charsContain (needle : List Char) : List Char → Bool
  | [] => charsStartWith needle []
  | b :: bs => charsStartWith needle (b :: bs) || charsContain needle bs

/-- Python `needle in hay` on strings. -/
def strHasSub (hay needle : String) : Bool :=
  charsContain needle.data hay.data

/-- ASCII lower-casing of one character (Python str.lower; non-ASCII
case mappings are outside the model). -/
def pyLowerChar (c : Char) : Char :=
  if 'A' ≤ c && c ≤ 'Z' then Char.ofNat (c.toNat + 32) else c

/-- Python str.lower on a string. -/
def pyLower (s : String) : String := String.mk (s.data.map pyLowerChar)

/-- Split a character list at every occurrence of a separator (the
behaviour of Python str.split with a one-character separator, and of
String.splitOn restricted to such separators). -/
def splitOnChar (sep : Char) : List Char → List (List Char)
  | [] => [[]]
  | c :: cs =>
    let r := splitOnChar sep cs
    if c = sep then [] :: r
    else
      match r with
      | [] => [[c]]
      | h :: t => (c :: h) :: t

/-- String form of splitOnChar. -/
def strSplit (sep : Char) (s : String) : List String :=
  (splitOnChar sep s.data).map String.mk

/-! ## Truthiness of optional fields (Python semantics) -/

/-- Python truthiness of an optional string: None and "" are falsy. -/
def truthyS : Option String → Bool
  | none => false
  | some s => !(s = "")

/-- Python truthiness of an optional integer: None and 0 are falsy. -/
def truthyI : Option Int → Bool
  | none => false
  | some n => !(n = 0)

/-- Python truthiness of an optional float: None and 0.0 are falsy. -/
def truthyF : Option ℚ → Bool
  | none => false
  | some q => !(q = 0)

/-! ## Rounding (Python round, exact-rational model) -/

/-- Python `round` to an integer: round half to even on exact rationals. -/
def bankersRound (x : ℚ) : ℤ :=
  let f := Int.floor x
  let r := x - f
  if r < 1/2 then f
  else if 1/2 < r then f + 1
  else if f % 2 = 0 then f else f + 1

/-- Python `round(x, 2)` on exact rationals. -/
def round2 (x : ℚ) : ℚ := (bankersRound (x * 100) : ℚ) / 100

/-- Python `round(x, 1)` on exact rationals. -/
def round1 (x : ℚ) : ℚ := (bankersRound (x * 10) : ℚ) / 10

/-- Rational constant given by an explicit reduced fraction.  Decimal
constants of the source (weights like 1.5, coordinates like 37.0902) are
written this way so that the model evaluates inside the kernel; ratLit_eq
recovers the ordinary division form. -/
def ratLit (n : ℤ) (d : ℕ) (hd : d ≠ 0 := by decide)
    (hc : n.natAbs.Coprime d := by decide) : ℚ := ⟨n, d, hd, hc⟩

theorem ratLit_eq (n : ℤ) (d : ℕ) (hd : d ≠ 0) (hc : n.natAbs.Coprime d) :
    ratLit n d hd hc = (n : ℚ) / (d : ℚ) := by
  rw [ratLit, Rat.mk'_eq_divInt, Rat.divInt_eq_div]
  norm_num

theorem bankersRound_intCast (k : ℤ) : bankersRound (k : ℚ) = k := by
  unfold bankersRound
  have hf : Int.floor (k : ℚ) = k := Int.floor_intCast k
  simp [hf]

theorem round2_of_mul_hundred_int (x : ℚ) (k : ℤ) (h : x * 100 = k) :
    round2 x = x := by
  unfold round2
  rw [h, bankersRound_intCast]
  have h100 : (100 : ℚ) ≠ 0 := by norm_num
  field_simp at h ⊢
  linarith [h]

/-! ## Data model: RiskLevel and VPNNode (src/risk_engine.py, lines 11-40) -/

/-- Risk level classification (class RiskLevel). -/
inductive RiskLevel
  | low
  | medium
  | high
  | unknown
deriving DecidableEq, Repr

/-- Data model for a VPN/Tor exit node (dataclass VPNNode).  The
risk_factors default of None followed by the post-init replacement with []
is modelled by a plain [] default. -/
structure VPNNode where
  ip : String
  port : Option Int := none
  country : Option String := none
  region : Option String := none
  city : Option String := none
  asn : Option String := none
  isp : Option String := none
  first_seen : Option String := none
  last_seen : Option String := none
  latitude : Option ℚ := none
  longitude : Option ℚ := none
  risk_score : ℚ := 0
  risk_level : RiskLevel := RiskLevel.unknown
  risk_factors : List String := []
deriving DecidableEq, Repr

/-! ## Risk engine (src/risk_engine.py, lines 62-217) -/

/-- Classification thresholds (the self.thresholds dict). -/
structure ThresholdCfg where
  high : ℚ
  medium : ℚ
  low : ℚ
deriving DecidableEq, Repr

/-- State of a constructed RiskEngine (fields set in RiskEngine.__init__,
lines 68-85). -/
structure RiskEngine where
  high_risk_ports : List Int
  medium_risk_ports : List Int
  datacenter_keywords : List String
  thresholds : ThresholdCfg
deriving Repr

/-- RiskEngine.__init__ applied to a config carrying all keys: the
datacenter keywords are lowercased on construction (line 78-80). -/
def mkRiskEngine (highPorts medPorts : List Int) (rawKeywords : List String)
    (ths : ThresholdCfg) : RiskEngine :=
  { high_risk_ports := highPorts
    medium_risk_ports := medPorts
    datacenter_keywords := rawKeywords.map pyLower
    thresholds := ths }

/-- The engine built from get_default_config()['risk_engine']
(src/utils.py, lines 49-60), as app.py line 49 does. -/
def defaultRiskEngine : RiskEngine :=
  mkRiskEngine [22, 23, 3389, 4444, 5555, 8080, 8888] [80, 443, 8000, 8443]
    ["hosting", "datacenter", "cloud", "virtual", "vpn", "proxy"]
    ⟨7, 4, 0⟩

/-- Port rule (assess_node lines 100-107): the score increment and factor
strings contributed by the port checks.  The outer `if node.port`
truthiness test skips None and 0. -/
def portContrib (e : RiskEngine) (n : VPNNode) : ℚ × List String :=
  match n.port with
  | none => (0, [])
  | some p =>
    if p = 0 then (0, [])
    else if p ∈ e.high_risk_ports then
      (3, ["High-risk port (" ++ toString p ++ ")"])
    else if p ∈ e.medium_risk_ports then
      (ratLit 3 2, ["Medium-risk port (" ++ toString p ++ ")"])   -- 1.5
    else (0, [])

/-- Datacenter-ISP rule (assess_node lines 110-114). -/
def ispDcContrib (e : RiskEngine) (n : VPNNode) : ℚ × List String :=
  match n.isp with
  | none => (0, [])
  | some s =>
    if s = "" then (0, [])
    else if e.datacenter_keywords.any (fun kw => strHasSub (pyLower s) kw) then
      (2, ["Datacenter/hosting provider"])
    else (0, [])

/-- Datacenter-ASN rule (assess_node lines 116-120). -/
def asnDcContrib (e : RiskEngine) (n : VPNNode) : ℚ × List String :=
  match n.asn with
  | none => (0, [])
  | some s =>
    if s = "" then (0, [])
    else if e.datacenter_keywords.any (fun kw => strHasSub (pyLower s) kw) then
      (ratLit 3 2, ["Datacenter ASN pattern"])   -- 1.5
    else (0, [])

/-- Known-VPN-provider rule (assess_node lines 126-128). -/
def vpnContrib (n : VPNNode) : ℚ × List String :=
  match n.isp with
  | none => (0, [])
  | some s =>
    if s = "" then (0, [])
    else if strHasSub (pyLower s) "vpn" then (1, ["Known VPN provider"])
    else (0, [])

/-- Number of missing metadata fields (assess_node lines 131-137);
Python falsiness of each field counts it as missing. -/
def missingFields (n : VPNNode) : Nat :=
  (if truthyS n.country then 0 else 1) +
  (if truthyS n.isp then 0 else 1) +
  (if truthyS n.asn then 0 else 1)

/-- Sparse-metadata rule (assess_node lines 139-141). -/
def sparseContrib (n : VPNNode) : ℚ × List String :=
  if 2 ≤ missingFields n then (ratLit 1 2, ["Insufficient metadata"])   -- 0.5
  else (0, [])

/-- Accumulated risk score of assess_node (the risk_score variable at
line 143), as the sum of the independent rule contributions in source
order. -/
def rawScore (e : RiskEngine) (n : VPNNode) : ℚ :=
  (portContrib e n).1 + (ispDcContrib e n).1 + (asnDcContrib e n).1 +
    (vpnContrib n).1 + (sparseContrib n).1

/-- Accumulated risk factor list of assess_node (the risk_factors variable
at line 143), appended in source order. -/
def rawFactors (e : RiskEngine) (n : VPNNode) : List String :=
  (portContrib e n).2 ++ (ispDcContrib e n).2 ++ (asnDcContrib e n).2 ++
    (vpnContrib n).2 ++ (sparseContrib n).2

/-- Threshold classification (assess_node lines 144-151). -/
def classify (t : ThresholdCfg) (s : ℚ) : RiskLevel :=
  if t.high ≤ s then RiskLevel.high
  else if t.medium ≤ s then RiskLevel.medium
  else if 0 < s then RiskLevel.low
  else RiskLevel.unknown

/-- RiskEngine.assess_node (lines 87-158): the node is updated with the
rounded score, the level computed from the unrounded score, and the factor
list. -/
def assessNode (e : RiskEngine) (n : VPNNode) : VPNNode :=
  { n with
    risk_score := round2 (rawScore e n)
    risk_level := classify e.thresholds (rawScore e n)
    risk_factors := rawFactors e n }

/-- RiskEngine.assess_nodes (lines 160-170). -/
def assessNodes (e : RiskEngine) (ns : List VPNNode) : List VPNNode :=
  ns.map (assessNode e)

/-! ## Aggregate statistics (src/risk_engine.py, lines 172-217) -/

/-- Result of get_statistics.  The percentage entries are present only in
the non-empty branch of the source (lines 213-216), hence Option. -/
structure RiskStats where
  total : Nat
  high_risk : Nat
  medium_risk : Nat
  low_risk : Nat
  unknown : Nat
  average_score : ℚ
  high_risk_pct : Option ℚ
  medium_risk_pct : Option ℚ
  low_risk_pct : Option ℚ
  unknown_pct : Option ℚ
deriving DecidableEq, Repr

/-- The statistics loop (lines 202-204): per-level counters and the score
total, accumulated over the nodes in order. -/
def statsLoop : List VPNNode → Nat × Nat × Nat × Nat × ℚ →
    Nat × Nat × Nat × Nat × ℚ
  | [], acc => acc
  | n :: rest, (h, m, l, u, s) =>
    match n.risk_level with
    | RiskLevel.high => statsLoop rest (h + 1, m, l, u, s + n.risk_score)
    | RiskLevel.medium => statsLoop rest (h, m + 1, l, u, s + n.risk_score)
    | RiskLevel.low => statsLoop rest (h, m, l + 1, u, s + n.risk_score)
    | RiskLevel.unknown => statsLoop rest (h, m, l, u + 1, s + n.risk_score)

/-- RiskEngine.get_statistics (lines 172-217). -/
def getStatistics (ns : List VPNNode) : RiskStats :=
  let total := ns.length
  if total = 0 then
    { total := 0, high_risk := 0, medium_risk := 0, low_risk := 0
      unknown := 0, average_score := 0
      high_risk_pct := none, medium_risk_pct := none
      low_risk_pct := none, unknown_pct := none }
  else
    let acc := statsLoop ns (0, 0, 0, 0, 0)
    match acc with
    | (h, m, l, u, s) =>
      { total := total
        high_risk := h, medium_risk := m, low_risk := l, unknown := u
        average_score := round2 (s / total)
        high_risk_pct := some (round1 ((h : ℚ) / total * 100))
        medium_risk_pct := some (round1 ((m : ℚ) / total * 100))
        low_risk_pct := some (round1 ((l : ℚ) / total * 100))
        unknown_pct := some (round1 ((u : ℚ) / total * 100)) }

/-! ## Geo enrichment (src/geo_analyzer.py) -/

/-- ASCII whitespace characters stripped by Python int() and str.strip().
Unicode space characters are not modelled. -/
def pyWs (c : Char) : Bool :=
  c = ' ' || c = '\t' || c = '\n' || c = '\x0d' || c = '\x0b' || c = '\x0c'

/-- Decimal digit value of a character. -/
def digitVal (c : Char) : Nat := c.toNat - '0'.toNat

/-- Digit-run parser for Python int(): a nonempty digit sequence in which
single underscores may separate digits (Python 3.6+ literals accepted by
int()).  The first character must already have been checked to be a
digit by pyDigitsVal. -/
def pyDigitsGo : List Char → Nat → Option Nat
  | [], acc => some acc
  | ['_'], _ => none
  | '_' :: d :: ds, acc =>
    if d.isDigit then pyDigitsGo ds (acc * 10 + digitVal d) else none
  | c :: cs, acc =>
    if c.isDigit then pyDigitsGo cs (acc * 10 + digitVal c) else none

/-- Value of a Python int() digit run (no sign, no surrounding space). -/
def pyDigitsVal (l : List Char) : Option Nat :=
  match l with
  | [] => none
  | c :: cs => if c.isDigit then pyDigitsGo cs (digitVal c) else none

/-- Python int(s) on a string: optional surrounding whitespace, optional
sign, then a digit run; None models the ValueError path. -/
def pyInt (s : String) : Option Int :=
  let l := ((s.data.dropWhile pyWs).reverse.dropWhile pyWs).reverse
  match l with
  | '+' :: rest => (pyDigitsVal rest).map fun n => (n : Int)
  | '-' :: rest => (pyDigitsVal rest).map fun n => -(n : Int)
  | rest => (pyDigitsVal rest).map fun n => (n : Int)

/-- The first dotted component of the ip, fed to int()
(geo_analyzer.py line 193). -/
def firstOctet (ip : String) : Option Int :=
  pyInt ((strSplit '.' ip).headD "")

/-- Normalized result of one external lookup (the dict built at
geo_analyzer.py lines 83-91 or 122-130).  Fields may be None. -/
structure IpData where
  country : Option String := none
  region : Option String := none
  city : Option String := none
  latitude : Option ℚ := none
  longitude : Option ℚ := none
  asn : Option String := none
  isp : Option String := none
deriving DecidableEq, Repr

/-- Python `a or b` on optional strings: keeps a when truthy, else b. -/
def pyOrS (a b : Option String) : Option String :=
  if truthyS a then a else b

/-- Python `a or b` on optional floats: keeps a when truthy, else b. -/
def pyOrF (a b : Option ℚ) : Option ℚ :=
  if truthyF a then a else b

/-- GeoAnalyzer._get_country_coordinates (lines 217-245): approximate
centroid per country code, defaulting to (0, 0). -/
def countryCoordinates (c : String) : ℚ × ℚ :=
  match c with
  | "US" => (ratLit 185451 5000, ratLit (-957129) 10000)   -- (37.0902, -95.7129)
  | "GB" => (ratLit 553781 10000, ratLit (-859) 250)       -- (55.3781, -3.4360)
  | "DE" => (ratLit 511657 10000, ratLit 20903 2000)       -- (51.1657, 10.4515)
  | "FR" => (ratLit 115569 2500, ratLit 22137 10000)       -- (46.2276, 2.2137)
  | "NL" => (ratLit 260663 5000, ratLit 52913 10000)       -- (52.1326, 5.2913)
  | "CA" => (ratLit 70163 1250, ratLit (-265867) 2500)     -- (56.1304, -106.3468)
  | "AU" => (ratLit (-31593) 1250, ratLit 1337751 10000)   -- (-25.2744, 133.7751)
  | "JP" => (ratLit 22628 625, ratLit 1382529 10000)       -- (36.2048, 138.2529)
  | "CN" => (ratLit 358617 10000, ratLit 520977 5000)      -- (35.8617, 104.1954)
  | "IN" => (ratLit 205937 10000, ratLit 789629 10000)     -- (20.5937, 78.9629)
  | "BR" => (ratLit (-2847) 200, ratLit (-519253) 10000)   -- (-14.2350, -51.9253)
  | "RU" => (ratLit 15381 250, ratLit 263297 2500)         -- (61.5240, 105.3188)
  | "SG" => (ratLit 13521 10000, ratLit 519099 5000)       -- (1.3521, 103.8198)
  | "EU" => (ratLit 508503 10000, ratLit 43517 10000)      -- (50.8503, 4.3517)
  | _ => (0, 0)

/-- Coordinate lookup applied to an optional country (the dict .get of
line 208 never raises; a None key falls to the default). -/
def coordsOf (c : Option String) : ℚ × ℚ :=
  match c with
  | some s => countryCoordinates s
  | none => (0, 0)

/-- GeoAnalyzer._apply_fallback_data (lines 180-215).  When int() on the
first dotted component raises, the exception is caught and the node is
returned unchanged; otherwise a falsy country is replaced by the
first-octet bucket, and when either coordinate is falsy both coordinates
are overwritten with the country centroid. -/
def applyFallbackData (n : VPNNode) : VPNNode :=
  match firstOctet n.ip with
  | none => n
  | some o =>
    let country :=
      if truthyS n.country then n.country
      else some (if o < 50 then "US"
                 else if o < 100 then "EU"
                 else if o < 150 then "CN"
                 else "Unknown")
    if !truthyF n.latitude || !truthyF n.longitude then
      let coords := coordsOf country
      { n with country := country
               latitude := some coords.1
               longitude := some coords.2 }
    else
      { n with country := country }

/-- The completeness guard of enrich_node (line 150): all of latitude,
longitude and country are truthy. -/
def hasCompleteGeo (n : VPNNode) : Bool :=
  truthyF n.latitude && truthyF n.longitude && truthyS n.country

/-- GeoAnalyzer.enrich_node (lines 138-178), instrumented: the Bool
records whether the external lookup chain (lines 157-164) was consulted.
The oracle stands for the combined ipinfo-then-free-api result. -/
def enrichNodeT (api : String → Option IpData) (n : VPNNode)
    (useApi : Bool) : VPNNode × Bool :=
  if hasCompleteGeo n then (n, false)
  else if !useApi then (applyFallbackData n, false)
  else
    match api n.ip with
    | some d =>
      ({ n with
          country := pyOrS n.country d.country
          region := pyOrS n.region d.region
          city := pyOrS n.city d.city
          latitude := pyOrF n.latitude d.latitude
          longitude := pyOrF n.longitude d.longitude
          asn := pyOrS n.asn d.asn
          isp := pyOrS n.isp d.isp }, true)
    | none => (applyFallbackData n, true)

/-- GeoAnalyzer.enrich_node, result only. -/
def enrichNode (api : String → Option IpData) (n : VPNNode)
    (useApi : Bool) : VPNNode :=
  (enrichNodeT api n useApi).1

/-- The loop of GeoAnalyzer.enrich_nodes (lines 260-271), instrumented:
made is the running api_calls_made counter; each output pair carries the
enriched node and whether the lookup chain was consulted for it. -/
def enrichNodesGo (api : String → Option IpData) (useApi : Bool)
    (maxApiCalls : Nat) : List VPNNode → Nat → List (VPNNode × Bool)
  | [], _ => []
  | n :: rest, made =>
    let shouldUseApi := useApi && decide (made < maxApiCalls)
    let r := enrichNodeT api n shouldUseApi
    let made' := if shouldUseApi && truthyF r.1.latitude then made + 1
                 else made
    r :: enrichNodesGo api useApi maxApiCalls rest made'

/-- GeoAnalyzer.enrich_nodes (lines 247-274), result list only. -/
def enrichNodes (api : String → Option IpData) (nodes : List VPNNode)
    (useApi : Bool) (maxApiCalls : Nat) : List VPNNode :=
  (enrichNodesGo api useApi maxApiCalls nodes 0).map Prod.fst

/-! ## IP validation (src/utils.py validate_ip, lines 99-114)

validate_ip calls Python ipaddress.ip_address and reports whether it
raises ValueError.  The parser below transcribes CPython's
IPv4Address/IPv6Address string grammars (including rejection of leading
zeros in IPv4 octets, the single-compression rule of IPv6, embedded IPv4
tails, and IPv6 scope/zone identifiers).  ip_address also accepts Python
ints in the range [0, 2^128); that path matters for object-typed cells. -/

/-- Numeric value of an ASCII digit run. -/
def digitsToNat (l : List Char) : Nat :=
  l.foldl (fun a c => a * 10 + digitVal c) 0

/-- One dotted-quad octet per CPython _parse_octet: nonempty ASCII
digits, at most 3 of them, no leading zero, value at most 255. -/
def ipv4OctetValid (s : String) : Bool :=
  let l := s.data
  !(l = []) && l.all Char.isDigit && decide (l.length ≤ 3) &&
    (decide (l.length = 1) || !(l.headD '0' = '0')) &&
    decide (digitsToNat l ≤ 255)

/-- CPython IPv4Address string grammar: exactly four valid octets. -/
def ipv4Valid (s : String) : Bool :=
  let parts := strSplit '.' s
  decide (parts.length = 4) && parts.all ipv4OctetValid

/-- Hexadecimal digit as accepted by CPython _parse_hextet. -/
def isHexDig (c : Char) : Bool :=
  c.isDigit || ('a' ≤ c && c ≤ 'f') || ('A' ≤ c && c ≤ 'F')

/-- One IPv6 hextet: one to four hex digits. -/
def validHextet (s : String) : Bool :=
  decide (1 ≤ s.length) && decide (s.length ≤ 4) && s.data.all isHexDig

/-- CPython IPv6Address string grammar (_ip_int_from_string), without the
zone identifier: colon-separated parts, optional single compression,
optional embedded IPv4 tail. -/
def ipv6Valid (s : String) : Bool :=
  let parts0 := strSplit ':' s
  if parts0.length < 3 then false
  else
    let lastPart := parts0.getLastD ""
    let hasV4 := lastPart.data.any (fun c => c = '.')
    if hasV4 && !ipv4Valid lastPart then false
    else
      let parts := if hasV4 then parts0.dropLast ++ ["0", "0"] else parts0
      if 9 < parts.length then false
      else
        let middle := (parts.drop 1).dropLast
        match middle.findIdx? (fun p => p = "") with
        | some j =>
          if (middle.drop (j + 1)).any (fun p => p = "") then false
          else
            let skip := j + 1
            let headEmpty := parts.headD "x" = ""
            let lastEmpty := parts.getLastD "x" = ""
            let hi := parts.length - skip - 1
            if headEmpty && !(skip - 1 = 0) then false
            else if lastEmpty && !(hi - 1 = 0) then false
            else
              let hiCount := if headEmpty then 0 else skip
              let loCount := if lastEmpty then 0 else hi
              decide (hiCount + loCount ≤ 7) &&
                (parts.take hiCount).all validHextet &&
                (parts.drop (parts.length - loCount)).all validHextet
        | none =>
          decide (parts.length = 8) && !(parts.headD "" = "") &&
            !(parts.getLastD "" = "") && parts.all validHextet

/-- CPython ip_address on a string: IPv4, or IPv6 with an optional
nonempty zone identifier after the first percent sign. -/
def validIpStr (s : String) : Bool :=
  ipv4Valid s ||
  (match strSplit '%' s with
   | [addr] => ipv6Valid addr
   | [addr, zone] => !(zone = "") && ipv6Valid addr
   | _ => false)

/-! ## Tabular model (pandas DataFrame, src/data_processor.py)

A cell is a string, a Python int, a float, or a missing value (None or
NaN — pandas drop_duplicates treats all missing values as equal, so one
constructor suffices).  A column is object-typed or numeric-typed; in a
numeric column integer values are numpy scalars, which ip_address does
not accept, while in an object column they are Python ints, which it
does.  Infinities and non-numeric Python objects other than strings are
outside the model. -/

inductive Cell
  | str (s : String)
  | int (n : Int)
  | float (q : ℚ)
  | null
deriving DecidableEq, Repr

inductive DType
  | obj
  | num
deriving DecidableEq, Repr

/-- A DataFrame: named, typed columns and a list of rows. -/
structure DataFrame where
  cols : List (String × DType)
  rows : List (List Cell)
deriving DecidableEq, Repr

/-- Cell read with the pandas missing-value default. -/
def cellAt (r : List Cell) (i : Nat) : Cell := r.getD i Cell.null

/-- Column names of a frame. -/
def colNames (df : DataFrame) : List String := df.cols.map Prod.fst

/-- Index of the first column carrying a label. -/
def findNameIdx (nm : String) : List (String × DType) → Option Nat
  | [] => none
  | c :: cs =>
    if c.1 = nm then some 0 else (findNameIdx nm cs).map (fun i => i + 1)

/-- Index of the column labelled ip.  The loaders produce unique labels,
so first-match indexing agrees with pandas label selection. -/
def findIpIdx (df : DataFrame) : Option Nat :=
  findNameIdx "ip" df.cols

/-- Dtype of the i-th column. -/
def dtypeAt (df : DataFrame) (i : Nat) : DType :=
  (df.cols.getD i ("", DType.obj)).2

/-- Number of columns carrying a given label. -/
def countName (df : DataFrame) (nm : String) : Nat :=
  df.cols.countP (fun c => c.1 = nm)

/-- validate_ip applied to one cell: strings go through the string
grammar; Python ints (object columns only) are accepted in
[0, 2^128); numpy scalars, floats and missing values stringify to
something unparseable. -/
def validIpCell (dt : DType) : Cell → Bool
  | Cell.str s => validIpStr s
  | Cell.int n => (dt = DType.obj : Bool) && decide (0 ≤ n) && decide (n < 2 ^ 128)
  | Cell.float _ => false
  | Cell.null => false

/-- Value equality used by pandas drop_duplicates: numbers compare by
value across int/float, and missing values are treated as equal. -/
def cellEqv : Cell → Cell → Bool
  | Cell.str a, Cell.str b => a = b
  | Cell.int a, Cell.int b => a = b
  | Cell.int a, Cell.float b => (a : ℚ) = b
  | Cell.float a, Cell.int b => a = (b : ℚ)
  | Cell.float a, Cell.float b => a = b
  | Cell.null, Cell.null => true
  | _, _ => false

/-- Numeric interpretation of a string cell, as pd.to_numeric parses it:
optional surrounding whitespace, optional sign, decimal digits with an
optional fractional part, optional exponent. -/
def pyFloatParse (s : String) : Option ℚ :=
  let l := ((s.data.dropWhile pyWs).reverse.dropWhile pyWs).reverse
  let sgnBody : ℚ × List Char :=
    match l with
    | '+' :: r => (1, r)
    | '-' :: r => (-1, r)
    | r => (1, r)
  let sgn := sgnBody.1
  let ipPair := sgnBody.2.span Char.isDigit
  let fracPair : Option (List Char) × List Char :=
    match ipPair.2 with
    | '.' :: r => (some (r.takeWhile Char.isDigit), r.dropWhile Char.isDigit)
    | r => (none, r)
  let fracDigits := (fracPair.1).getD []
  if ipPair.1 = [] && fracDigits = [] then none
  else
    let mantissa : ℚ :=
      (digitsToNat ipPair.1 : ℚ) +
        (digitsToNat fracDigits : ℚ) / ((10 : ℚ) ^ fracDigits.length)
    match fracPair.2 with
    | [] => some (sgn * mantissa)
    | e :: rest =>
      if e = 'e' || e = 'E' then
        let expPair : ℤ × List Char :=
          match rest with
          | '+' :: r => (1, r)
          | '-' :: r => (-1, r)
          | r => (1, r)
        let ds := expPair.2
        if ds = [] || !ds.all Char.isDigit then none
        else some (sgn * mantissa * (10 : ℚ) ^ (expPair.1 * (digitsToNat ds : ℤ)))
      else none

/-- pd.to_numeric(cell, errors="coerce"): numbers pass through, strings
are parsed, anything else becomes missing. -/
def numParse : Cell → Option ℚ
  | Cell.str s => pyFloatParse s
  | Cell.int n => some (n : ℚ)
  | Cell.float q => some q
  | Cell.null => none

/-- Truncation toward zero, as numpy astype(int) applies to floats. -/
def truncQ (q : ℚ) : ℤ := if 0 ≤ q then Int.floor q else Int.ceil q

/-- Remove leading and trailing whitespace from a character list. -/
def trimChars (l : List Char) : List Char :=
  ((l.dropWhile pyWs).reverse.dropWhile pyWs).reverse

/-- Python str.strip (pandas .str.strip on a string element). -/
def pyStrip (s : String) : String := String.mk (trimChars s.data)

/-! ### DataProcessor.clean_dataframe (lines 156-208), stepwise -/

/-- Lines 169-170: keep only rows whose ip cell validates, when an ip
column exists. -/
def dropInvalidIps (df : DataFrame) : DataFrame :=
  match findIpIdx df with
  | some i =>
    { df with rows :=
        df.rows.filter (fun r => validIpCell (dtypeAt df i) (cellAt r i)) }
  | none => df

/-- Keep-first deduplication keyed on column i, with the keys already
kept accumulated in seen. -/
def dedupAux (i : Nat) : List (List Cell) → List Cell → List (List Cell)
  | [], _ => []
  | r :: rest, seen =>
    if seen.any (fun k => cellEqv k (cellAt r i)) then dedupAux i rest seen
    else r :: dedupAux i rest (cellAt r i :: seen)

/-- Line 173: drop_duplicates(subset=[ip], keep=first).  pandas raises
KeyError when no ip column exists — note this runs before the column
renaming. -/
def dropDupIps (df : DataFrame) : Except String DataFrame :=
  match findIpIdx df with
  | none => Except.error "KeyError: ip"
  | some i => Except.ok { df with rows := dedupAux i df.rows [] }

/-- The fixed alternate-spelling table (lines 176-186), in source
order. -/
def columnMapping : List (String × String) :=
  [("IP", "ip"), ("Port", "port"), ("Country", "country"),
   ("ASN", "asn"), ("ISP", "isp"), ("First Seen", "first_seen"),
   ("Last Seen", "last_seen"), ("Latitude", "latitude"),
   ("Longitude", "longitude")]

/-- One conditional rename (lines 188-190): every column carrying the old
label is relabelled. -/
def renameOne (cs : List (String × DType)) (p : String × String) :
    List (String × DType) :=
  if cs.any (fun c => c.1 = p.1) then
    cs.map (fun c => if c.1 = p.1 then (p.2, c.2) else c)
  else cs

/-- All renames, applied in table order. -/
def renameCols (cs : List (String × DType)) : List (String × DType) :=
  columnMapping.foldl renameOne cs

/-- Lines 188-190 as a frame transformation. -/
def renameColumns (df : DataFrame) : DataFrame :=
  { df with cols := renameCols df.cols }

/-- Lines 193-195 applied to one port cell: to_numeric with coercion,
fillna(0), astype(int), then zero becomes missing.  The surviving values
live in a float64 column (the None assignment upcasts), hence
Cell.float. -/
def portCoerceCell (c : Cell) : Cell :=
  let t := truncQ ((numParse c).getD 0)
  if t = 0 then Cell.null else Cell.float (t : ℚ)

/-- Lines 198-200 applied to one latitude/longitude cell: to_numeric with
coercion. -/
def latlonCell (c : Cell) : Cell :=
  match numParse c with
  | some q => Cell.float q
  | none => Cell.null

/-- Replace column i of the frame cellwise and mark it numeric. -/
def mapNumCol (df : DataFrame) (i : Nat) (f : Cell → Cell) : DataFrame :=
  { cols := df.cols.set i ((df.cols.getD i ("", DType.obj)).1, DType.num)
    rows := df.rows.map (fun r => r.set i (f (cellAt r i))) }

/-- Numeric coercion of the column labelled nm, if present.  With a
duplicated label, pandas df[nm] yields a sub-frame and pd.to_numeric
raises TypeError. -/
def coerceNumericCol (df : DataFrame) (nm : String) (f : Cell → Cell) :
    Except String DataFrame :=
  match findNameIdx nm df.cols with
  | none => Except.ok df
  | some i =>
    if 2 ≤ countName df nm then
      Except.error ("TypeError: duplicate column " ++ nm)
    else Except.ok (mapNumCol df i f)

/-- Strip applied to one cell of an object column: pandas .str methods
turn non-string elements into missing values. -/
def stripCell : Cell → Cell
  | Cell.str s => Cell.str (pyStrip s)
  | _ => Cell.null

/-- Strip one row at every object-typed column index; cells beyond the
column list are untouched. -/
def stripRow : List (String × DType) → List Cell → List Cell
  | _, [] => []
  | [], c :: rest => c :: stripRow [] rest
  | col :: cols, c :: rest =>
    (if col.2 = DType.obj then stripCell c else c) :: stripRow cols rest

/-- Lines 203-205: whitespace-strip every object column.  When an object
column's label is duplicated, pandas df[col] yields a sub-frame and the
.str accessor raises. -/
def stripStep (df : DataFrame) : Except String DataFrame :=
  if df.cols.any (fun c => c.2 = DType.obj && decide (2 ≤ countName df c.1)) then
    Except.error "AttributeError: duplicate object column"
  else
    Except.ok { df with rows := df.rows.map (stripRow df.cols) }

/-- DataProcessor.clean_dataframe (lines 156-208): the six source steps
in source order.  Error values model uncaught pandas exceptions. -/
def cleanDataFrame (df : DataFrame) : Except String DataFrame := do
  let d1 := dropInvalidIps df
  let d2 ← dropDupIps d1
  let d3 := renameColumns d2
  let d4 ← coerceNumericCol d3 "port" portCoerceCell
  let d5 ← coerceNumericCol d4 "latitude" latlonCell
  let d6 ← coerceNumericCol d5 "longitude" latlonCell
  stripStep d6

/-! ## Helper lemmas: rounding and scoring rules -/

/-- Being an integer multiple of one half; every score the engine reaches
has this shape. -/
def IsHalfInt (q : ℚ) : Prop := ∃ k : ℤ, q = k / 2

theorem IsHalfInt.add {a b : ℚ} (ha : IsHalfInt a) (hb : IsHalfInt b) :
    IsHalfInt (a + b) := by
  obtain ⟨k, hk⟩ := ha
  obtain ⟨m, hm⟩ := hb
  exact ⟨k + m, by rw [hk, hm]; push_cast; ring⟩

theorem round2_halfInt {q : ℚ} (h : IsHalfInt q) : round2 q = q := by
  obtain ⟨k, hk⟩ := h
  refine round2_of_mul_hundred_int q (50 * k) ?_
  rw [hk]; push_cast; ring

/-- A rule contribution either adds nothing and reports nothing, or adds a
positive weight and reports a factor string. -/
def GoodContrib (c : ℚ × List String) : Prop :=
  (c.1 = 0 ∧ c.2 = []) ∨ (0 < c.1 ∧ c.2 ≠ [])

theorem portContrib_ok (e : RiskEngine) (n : VPNNode) :
    GoodContrib (portContrib e n) ∧ IsHalfInt (portContrib e n).1 := by
  unfold portContrib
  cases n.port with
  | none => exact ⟨Or.inl ⟨rfl, rfl⟩, 0, by norm_num⟩
  | some p =>
    by_cases h0 : p = 0
    · simp only [h0, if_true, reduceIte]
      exact ⟨Or.inl ⟨rfl, rfl⟩, 0, by norm_num⟩
    · simp only [h0, if_false, reduceIte]
      by_cases hh : p ∈ e.high_risk_ports
      · simp only [hh, if_true, reduceIte]
        exact ⟨Or.inr ⟨by norm_num, by simp⟩, 6, by norm_num⟩
      · simp only [hh, if_false, reduceIte]
        by_cases hm : p ∈ e.medium_risk_ports
        · simp only [hm, if_true, reduceIte]
          exact ⟨Or.inr ⟨by norm_num [ratLit_eq], by simp⟩, 3,
            by norm_num [ratLit_eq]⟩
        · simp only [hm, if_false, reduceIte]
          exact ⟨Or.inl ⟨rfl, rfl⟩, 0, by norm_num⟩

theorem ispDcContrib_ok (e : RiskEngine) (n : VPNNode) :
    GoodContrib (ispDcContrib e n) ∧ IsHalfInt (ispDcContrib e n).1 := by
  unfold ispDcContrib
  cases n.isp with
  | none => exact ⟨Or.inl ⟨rfl, rfl⟩, 0, by norm_num⟩
  | some s =>
    dsimp only
    split_ifs with h1 h2
    · exact ⟨Or.inl ⟨rfl, rfl⟩, 0, by norm_num⟩
    · exact ⟨Or.inr ⟨by norm_num, by simp⟩, 4, by norm_num⟩
    · exact ⟨Or.inl ⟨rfl, rfl⟩, 0, by norm_num⟩

theorem asnDcContrib_ok (e : RiskEngine) (n : VPNNode) :
    GoodContrib (asnDcContrib e n) ∧ IsHalfInt (asnDcContrib e n).1 := by
  unfold asnDcContrib
  cases n.asn with
  | none => exact ⟨Or.inl ⟨rfl, rfl⟩, 0, by norm_num⟩
  | some s =>
    dsimp only
    split_ifs with h1 h2
    · exact ⟨Or.inl ⟨rfl, rfl⟩, 0, by norm_num⟩
    · exact ⟨Or.inr ⟨by norm_num [ratLit_eq], by simp⟩, 3,
        by norm_num [ratLit_eq]⟩
    · exact ⟨Or.inl ⟨rfl, rfl⟩, 0, by norm_num⟩

theorem vpnContrib_ok (n : VPNNode) :
    GoodContrib (vpnContrib n) ∧ IsHalfInt (vpnContrib n).1 := by
  unfold vpnContrib
  cases n.isp with
  | none => exact ⟨Or.inl ⟨rfl, rfl⟩, 0, by norm_num⟩
  | some s =>
    dsimp only
    split_ifs with h1 h2
    · exact ⟨Or.inl ⟨rfl, rfl⟩, 0, by norm_num⟩
    · exact ⟨Or.inr ⟨by norm_num, by simp⟩, 2, by norm_num⟩
    · exact ⟨Or.inl ⟨rfl, rfl⟩, 0, by norm_num⟩

theorem sparseContrib_ok (n : VPNNode) :
    GoodContrib (sparseContrib n) ∧ IsHalfInt (sparseContrib n).1 := by
  unfold sparseContrib
  split_ifs with h1
  · exact ⟨Or.inr ⟨by norm_num [ratLit_eq], by simp⟩, 1,
      by norm_num [ratLit_eq]⟩
  · exact ⟨Or.inl ⟨rfl, rfl⟩, 0, by norm_num⟩

theorem rawScore_halfInt (e : RiskEngine) (n : VPNNode) :
    IsHalfInt (rawScore e n) :=
  ((((portContrib_ok e n).2.add (ispDcContrib_ok e n).2).add
      (asnDcContrib_ok e n).2).add (vpnContrib_ok n).2).add (sparseContrib_ok n).2

theorem assessNode_score_eq (e : RiskEngine) (n : VPNNode) :
    (assessNode e n).risk_score = rawScore e n := by
  simp [assessNode, round2_halfInt (rawScore_halfInt e n)]

theorem GoodContrib.nonneg {c : ℚ × List String} (h : GoodContrib c) :
    0 ≤ c.1 := by
  rcases h with ⟨h1, _⟩ | ⟨h1, _⟩
  · exact le_of_eq h1.symm
  · exact le_of_lt h1

theorem GoodContrib.nil_iff {c : ℚ × List String} (h : GoodContrib c) :
    c.2 = [] ↔ c.1 = 0 := by
  rcases h with ⟨h1, h2⟩ | ⟨h1, h2⟩
  · exact ⟨fun _ => h1, fun _ => h2⟩
  · exact ⟨fun hn => absurd hn h2, fun hz => absurd hz (by linarith)⟩

theorem rawScore_pos_iff (e : RiskEngine) (n : VPNNode) :
    0 < rawScore e n ↔ rawFactors e n ≠ [] := by
  have h1 := portContrib_ok e n
  have h2 := ispDcContrib_ok e n
  have h3 := asnDcContrib_ok e n
  have h4 := vpnContrib_ok n
  have h5 := sparseContrib_ok n
  have n1 := h1.1.nonneg
  have n2 := h2.1.nonneg
  have n3 := h3.1.nonneg
  have n4 := h4.1.nonneg
  have n5 := h5.1.nonneg
  have e1 := h1.1.nil_iff
  have e2 := h2.1.nil_iff
  have e3 := h3.1.nil_iff
  have e4 := h4.1.nil_iff
  have e5 := h5.1.nil_iff
  unfold rawScore rawFactors
  constructor
  · intro hpos hnil
    simp only [List.append_eq_nil] at hnil
    obtain ⟨⟨⟨⟨k1, k2⟩, k3⟩, k4⟩, k5⟩ := hnil
    have z1 := e1.mp k1
    have z2 := e2.mp k2
    have z3 := e3.mp k3
    have z4 := e4.mp k4
    have z5 := e5.mp k5
    linarith
  · intro hne
    by_contra hle
    push_neg at hle
    have t1 : (portContrib e n).1 = 0 := by linarith
    have t2 : (ispDcContrib e n).1 = 0 := by linarith
    have t3 : (asnDcContrib e n).1 = 0 := by linarith
    have t4 : (vpnContrib n).1 = 0 := by linarith
    have t5 : (sparseContrib n).1 = 0 := by linarith
    exact hne (by
      simp only [List.append_eq_nil]
      exact ⟨⟨⟨⟨e1.mpr t1, e2.mpr t2⟩, e3.mpr t3⟩, e4.mpr t4⟩, e5.mpr t5⟩)

/-! ## Claims about the risk scoring engine -/

/-- The example node of spec claim C2: exactly port and isp populated. -/
def c2Node : VPNNode :=
  { ip := "203.0.113.5", port := some 22, isp := some "Acme Hosting Cloud" }

/-- C2, counterexample: under the default configuration, the node with
exactly port=22 and isp="Acme Hosting Cloud" populated does not score
5.00 with the claimed two factors — the sparse-metadata rule also fires
(country and asn are absent), so the code produces 5.50 and a third
factor. -/
theorem claim_c2_counterexample :
    ¬((assessNode defaultRiskEngine c2Node).risk_score = 5 ∧
      (assessNode defaultRiskEngine c2Node).risk_factors =
        ["High-risk port (22)", "Datacenter/hosting provider"]) := by
  intro h
  have hf : (assessNode defaultRiskEngine c2Node).risk_factors =
      ["High-risk port (22)", "Datacenter/hosting provider",
       "Insufficient metadata"] := by decide
  rw [hf] at h
  exact absurd h.2 (by decide)

/-- C2, amended: under the default configuration, the node whose populated
optional fields are exactly port=22 and isp="Acme Hosting Cloud" yields
risk_score 5.50, risk_level Medium, and the three factors
High-risk port (22), Datacenter/hosting provider, Insufficient
metadata. -/
theorem claim_c2_amended :
    (assessNode defaultRiskEngine c2Node).risk_score = 11/2 ∧
    (assessNode defaultRiskEngine c2Node).risk_level = RiskLevel.medium ∧
    (assessNode defaultRiskEngine c2Node).risk_factors =
      ["High-risk port (22)", "Datacenter/hosting provider",
       "Insufficient metadata"] := by
  have h1 : portContrib defaultRiskEngine c2Node =
      (3, ["High-risk port (22)"]) := by decide
  have h2 : ispDcContrib defaultRiskEngine c2Node =
      (2, ["Datacenter/hosting provider"]) := by decide
  have h3 : asnDcContrib defaultRiskEngine c2Node = (0, []) := by decide
  have h4 : vpnContrib c2Node = (0, []) := by decide
  have h5 : sparseContrib c2Node =
      (ratLit 1 2, ["Insufficient metadata"]) := by decide
  have hraw : rawScore defaultRiskEngine c2Node = 11/2 := by
    rw [rawScore, h1, h2, h3, h4, h5]
    norm_num [ratLit_eq]
  refine ⟨?_, ?_, ?_⟩
  · rw [assessNode_score_eq, hraw]
  · show classify defaultRiskEngine.thresholds
      (rawScore defaultRiskEngine c2Node) = RiskLevel.medium
    rw [hraw]
    simp only [classify]
    rw [if_neg (by norm_num [defaultRiskEngine, mkRiskEngine]),
        if_pos (by norm_num [defaultRiskEngine, mkRiskEngine])]
  · show rawFactors defaultRiskEngine c2Node = _
    rw [rawFactors, h1, h2, h3, h4, h5]
    rfl

/-- C4: under the default thresholds (high 7.0, medium 4.0), the level
assigned by assess_node is the fixed threshold function of the final
rounded score, and that function sends 7.0 to High, 6.99 to Medium, 4.0
to Medium, 3.99 to Low and 0 to Unknown. -/
theorem claim_c4 :
    classify defaultRiskEngine.thresholds 7 = RiskLevel.high ∧
    classify defaultRiskEngine.thresholds (699/100) = RiskLevel.medium ∧
    classify defaultRiskEngine.thresholds 4 = RiskLevel.medium ∧
    classify defaultRiskEngine.thresholds (399/100) = RiskLevel.low ∧
    classify defaultRiskEngine.thresholds 0 = RiskLevel.unknown ∧
    ∀ n : VPNNode,
      (assessNode defaultRiskEngine n).risk_level =
        classify defaultRiskEngine.thresholds
          (assessNode defaultRiskEngine n).risk_score := by
  have hth : defaultRiskEngine.thresholds = ⟨7, 4, 0⟩ := rfl
  refine ⟨?_, ?_, ?_, ?_, ?_, ?_⟩
  · simp only [classify, hth]
    rw [if_pos (by norm_num)]
  · simp only [classify, hth]
    rw [if_neg (by norm_num), if_pos (by norm_num)]
  · simp only [classify, hth]
    rw [if_neg (by norm_num), if_pos (by norm_num)]
  · simp only [classify, hth]
    rw [if_neg (by norm_num), if_neg (by norm_num), if_pos (by norm_num)]
  · simp only [classify, hth]
    rw [if_neg (by norm_num), if_neg (by norm_num), if_neg (by norm_num)]
  · intro n
    rw [assessNode_score_eq]
    rfl

/-- C6: for every configuration and node, after assess_node the factor
list is non-empty exactly when the stored risk score is positive; in
particular a zero risk score comes with an empty factor list. -/
theorem claim_c6 : ∀ (e : RiskEngine) (n : VPNNode),
    ((assessNode e n).risk_factors ≠ [] ↔ 0 < (assessNode e n).risk_score) ∧
    ((assessNode e n).risk_score = 0 → (assessNode e n).risk_factors = []) := by
  intro e n
  have hs : (assessNode e n).risk_score = rawScore e n := assessNode_score_eq e n
  have hf : (assessNode e n).risk_factors = rawFactors e n := rfl
  rw [hs, hf]
  constructor
  · exact (rawScore_pos_iff e n).symm
  · intro hz
    by_contra hne
    have := (rawScore_pos_iff e n).mpr hne
    linarith

/-- C6, witness: the iff instantiated at the C2 example node under the
default engine. -/
theorem claim_c6_witness :
    0 < (assessNode defaultRiskEngine c2Node).risk_score :=
  ((claim_c6 defaultRiskEngine c2Node).1).mp (by decide)

/-! ## Claims about the aggregator -/

/-- Number of nodes carrying a given risk level. -/
def countLevel (lv : RiskLevel) (ns : List VPNNode) : Nat :=
  ns.countP (fun n => decide (n.risk_level = lv))

/-- Sum of the risk scores of a collection. -/
def totalScore (ns : List VPNNode) : ℚ := (ns.map VPNNode.risk_score).sum

theorem statsLoop_eq (ns : List VPNNode) :
    ∀ h m l u : Nat, ∀ s : ℚ,
      statsLoop ns (h, m, l, u, s) =
        (h + countLevel RiskLevel.high ns, m + countLevel RiskLevel.medium ns,
         l + countLevel RiskLevel.low ns, u + countLevel RiskLevel.unknown ns,
         s + totalScore ns) := by
  induction ns with
  | nil => intro h m l u s; simp [statsLoop, countLevel, totalScore]
  | cons n rest ih =>
    intro h m l u s
    cases hrl : n.risk_level <;>
      simp [statsLoop, hrl, ih, countLevel, totalScore, List.countP_cons,
        Prod.mk.injEq, Nat.add_assoc, Nat.add_comm, Nat.add_left_comm,
        add_assoc, add_comm, add_left_comm]

/-- C7: statistics returns the total, per-level counts, the average score
rounded to 2 decimals and per-level percentages rounded to 1 decimal for
a non-empty collection, and for the empty collection returns zero total,
zero counts and average 0.0 (with no percentage entries) instead of
raising. -/
theorem claim_c7 :
    getStatistics [] =
      { total := 0, high_risk := 0, medium_risk := 0, low_risk := 0,
        unknown := 0, average_score := 0, high_risk_pct := none,
        medium_risk_pct := none, low_risk_pct := none,
        unknown_pct := none } ∧
    ∀ ns : List VPNNode, ns ≠ [] →
      (getStatistics ns).total = ns.length ∧
      (getStatistics ns).high_risk = countLevel RiskLevel.high ns ∧
      (getStatistics ns).medium_risk = countLevel RiskLevel.medium ns ∧
      (getStatistics ns).low_risk = countLevel RiskLevel.low ns ∧
      (getStatistics ns).unknown = countLevel RiskLevel.unknown ns ∧
      (getStatistics ns).average_score =
        round2 (totalScore ns / (ns.length : ℚ)) ∧
      (getStatistics ns).high_risk_pct =
        some (round1 ((countLevel RiskLevel.high ns : ℚ) /
          (ns.length : ℚ) * 100)) ∧
      (getStatistics ns).medium_risk_pct =
        some (round1 ((countLevel RiskLevel.medium ns : ℚ) /
          (ns.length : ℚ) * 100)) ∧
      (getStatistics ns).low_risk_pct =
        some (round1 ((countLevel RiskLevel.low ns : ℚ) /
          (ns.length : ℚ) * 100)) ∧
      (getStatistics ns).unknown_pct =
        some (round1 ((countLevel RiskLevel.unknown ns : ℚ) /
          (ns.length : ℚ) * 100)) := by
  constructor
  · rfl
  · intro ns hne
    have hlen : ns.length ≠ 0 := by
      simpa [List.length_eq_zero] using hne
    unfold getStatistics
    rw [if_neg hlen]
    rw [statsLoop_eq ns 0 0 0 0 0]
    simp

/-- C7, witness: the non-empty branch applied to a one-node list. -/
theorem claim_c7_witness :
    (getStatistics [c2Node]).total = [c2Node].length :=
  (claim_c7.2 [c2Node] (by simp)).1

/-! ## Claims about geolocation enrichment -/

theorem enrichNodeT_false (api : String → Option IpData) (n : VPNNode) :
    enrichNodeT api n false =
      (if hasCompleteGeo n then n else applyFallbackData n, false) := by
  unfold enrichNodeT
  by_cases h : hasCompleteGeo n <;> simp [h]

theorem enrichNodeT_api_of_snd (api : String → Option IpData) (n : VPNNode)
    (u : Bool) (h : (enrichNodeT api n u).2 = true) : u = true := by
  cases u with
  | true => rfl
  | false => rw [enrichNodeT_false] at h; exact absurd h (by simp)

theorem go_saturated (api : String → Option IpData) (useApi : Bool)
    (maxApiCalls : Nat) (ns : List VPNNode) :
    ∀ made, maxApiCalls ≤ made →
      enrichNodesGo api useApi maxApiCalls ns made =
        ns.map (fun n => (enrichNode (fun _ => none) n false, false)) := by
  induction ns with
  | nil => intro made _; rfl
  | cons n rest ih =>
    intro made hle
    have hlt : decide (made < maxApiCalls) = false := by
      simp only [decide_eq_false_iff_not]
      omega
    have hhead : enrichNodeT api n false =
        (enrichNode (fun _ => none) n false, false) := by
      rw [enrichNodeT_false, enrichNode, enrichNodeT_false]
    simp only [enrichNodesGo, hhead, hlt, Bool.and_false, Bool.false_and,
      Bool.false_eq_true, if_false, List.map_cons]
    rw [ih made hle]

/-- C9: with max_api_calls = 0 the batch enrichment never consults the
external lookup chain: every instrumentation flag is false and the result
coincides with the pure offline enrichment, independent of the
provider oracle. -/
theorem claim_c9 : ∀ (api : String → Option IpData) (useApi : Bool)
    (ns : List VPNNode),
    (∀ p ∈ enrichNodesGo api useApi 0 ns 0, p.2 = false) ∧
    enrichNodes api ns useApi 0 =
      ns.map (fun n => enrichNode (fun _ => none) n false) := by
  intro api useApi ns
  have h := go_saturated api useApi 0 ns 0 (le_refl 0)
  constructor
  · intro p hp
    rw [h] at hp
    obtain ⟨n, _, rfl⟩ := List.mem_map.mp hp
    rfl
  · rw [enrichNodes, h, List.map_map]
    rfl

/-- C9, witness: a one-node batch under a responsive oracle and
use_api=true still equals the offline enrichment when the cap is 0. -/
theorem claim_c9_witness :
    enrichNodes (fun _ => some { country := some "DE" })
      [{ ip := "8.8.8.8" }] true 0 =
      ([{ ip := "8.8.8.8" }] : List VPNNode).map
        (fun n => enrichNode (fun _ => none) n false) :=
  (claim_c9 (fun _ => some { country := some "DE" }) true
    [{ ip := "8.8.8.8" }]).2

/-- The node exercising claim C10: country is the empty string and both
coordinates are 0.0 — all three populated but all falsy. -/
def c10Node : VPNNode :=
  { ip := "10.0.0.1", country := some "", latitude := some 0,
    longitude := some 0 }

/-- C10: enrich_node tests presence by truthiness — latitude or longitude
0.0 or country "" count as missing, so such a node is not returned
unchanged even though all three fields are non-null, and the zero/empty
values are replaced (here by the first-octet fallback: country US with
its centroid 37.0902, -95.7129). -/
theorem claim_c10 :
    (∀ n : VPNNode,
      n.latitude = some 0 ∨ n.longitude = some 0 ∨ n.country = some "" →
        hasCompleteGeo n = false) ∧
    (enrichNode (fun _ => none) c10Node false).country = some "US" ∧
    (enrichNode (fun _ => none) c10Node false).latitude =
      some (ratLit 185451 5000) ∧
    (enrichNode (fun _ => none) c10Node false).longitude =
      some (ratLit (-957129) 10000) ∧
    (ratLit 185451 5000 : ℚ) = 37.0902 ∧
    (ratLit (-957129) 10000 : ℚ) = -95.7129 ∧
    enrichNode (fun _ => none) c10Node false ≠ c10Node := by
  refine ⟨?_, by decide, by decide, by decide, by norm_num [ratLit_eq],
    by norm_num [ratLit_eq], by decide⟩
  intro n h
  unfold hasCompleteGeo
  rcases h with h | h | h <;> rw [h] <;> simp [truthyF, truthyS]

/-- C10, witness: the truthiness test applied to the concrete node. -/
theorem claim_c10_witness : hasCompleteGeo c10Node = false :=
  claim_c10.1 c10Node (Or.inl rfl)

/-- The node exercising claim C1's counterexample: truthy country and
latitude, missing longitude. -/
def c1Node : VPNNode :=
  { ip := "1.2.3.4", country := some "US", latitude := some 51 }

/-- C1, counterexample: enrichment can replace a pre-existing non-null
latitude.  A node with country US and latitude 51 but no longitude takes
the fallback path, which overwrites both coordinates with the US centroid
— the stored latitude 51 becomes 37.0902. -/
theorem claim_c1_counterexample :
    c1Node.country = some "US" ∧ c1Node.latitude = some 51 ∧
    (enrichNode (fun _ => none) c1Node false).latitude =
      some (ratLit 185451 5000) ∧
    (ratLit 185451 5000 : ℚ) = 37.0902 ∧
    (enrichNode (fun _ => none) c1Node false).latitude ≠ c1Node.latitude := by
  refine ⟨rfl, rfl, by decide, by norm_num [ratLit_eq], by decide⟩

theorem applyFallbackData_country (n : VPNNode)
    (h : truthyS n.country = true) :
    (applyFallbackData n).country = n.country := by
  unfold applyFallbackData
  cases firstOctet n.ip with
  | none => rfl
  | some o =>
    simp only [h, if_true, reduceIte]
    split <;> rfl

theorem applyFallbackData_latlon (n : VPNNode)
    (hla : truthyF n.latitude = true) (hlo : truthyF n.longitude = true) :
    (applyFallbackData n).latitude = n.latitude ∧
      (applyFallbackData n).longitude = n.longitude := by
  unfold applyFallbackData
  cases firstOctet n.ip with
  | none => exact ⟨rfl, rfl⟩
  | some o =>
    dsimp only
    rw [if_neg (by simp [hla, hlo])]
    exact ⟨rfl, rfl⟩

/-- C1, amended: when country, latitude and longitude are all truthy the
node is returned unchanged; a truthy country is never replaced; and when
both coordinates are truthy neither coordinate is replaced.  (When
exactly one coordinate is truthy the fallback path may overwrite it —
the counterexample.) -/
theorem claim_c1_amended : ∀ (api : String → Option IpData) (useApi : Bool)
    (n : VPNNode),
    (hasCompleteGeo n = true → enrichNode api n useApi = n) ∧
    (truthyS n.country = true →
      (enrichNode api n useApi).country = n.country) ∧
    (truthyF n.latitude = true → truthyF n.longitude = true →
      (enrichNode api n useApi).latitude = n.latitude ∧
      (enrichNode api n useApi).longitude = n.longitude) := by
  intro api useApi n
  by_cases hg : hasCompleteGeo n
  · have he : enrichNode api n useApi = n := by
      simp [enrichNode, enrichNodeT, hg]
    exact ⟨fun _ => he, fun _ => by rw [he],
      fun _ _ => by rw [he]; exact ⟨rfl, rfl⟩⟩
  · refine ⟨fun h => absurd h hg, ?_, ?_⟩
    · intro hc
      cases useApi with
      | false =>
        have : enrichNode api n false = applyFallbackData n := by
          simp [enrichNode, enrichNodeT_false, hg]
        rw [this]
        exact applyFallbackData_country n hc
      | true =>
        unfold enrichNode enrichNodeT
        rw [if_neg hg]
        cases hapi : api n.ip with
        | none => simp only; exact applyFallbackData_country n hc
        | some d => simp [pyOrS, hc]
    · intro hla hlo
      cases useApi with
      | false =>
        have : enrichNode api n false = applyFallbackData n := by
          simp [enrichNode, enrichNodeT_false, hg]
        rw [this]
        exact applyFallbackData_latlon n hla hlo
      | true =>
        unfold enrichNode enrichNodeT
        rw [if_neg hg]
        cases hapi : api n.ip with
        | none => simp only; exact applyFallbackData_latlon n hla hlo
        | some d => simp [pyOrF, hla, hlo]

/-- A node with complete truthy geo data, for the C1 witness. -/
def completeGeoNode : VPNNode :=
  { ip := "9.9.9.9", country := some "DE", latitude := some 1,
    longitude := some 2 }

/-- C1, witness: the unchanged-node branch at a concrete complete node. -/
theorem claim_c1_witness :
    enrichNode (fun _ => none) completeGeoNode true = completeGeoNode :=
  (claim_c1_amended (fun _ => none) true completeGeoNode).1 (by decide)

/-- An oracle modelling total lookup failure (both providers fail or
return nothing). -/
def apiFail : String → Option IpData := fun _ => none

/-- A fresh node whose first octet is 200, so the fallback assigns country
Unknown with centroid (0, 0) — a falsy latitude. -/
def c3Node : VPNNode := { ip := "200.0.0.1" }

/-- C3, counterexample: with max_api_calls = 1, a two-node batch whose
lookups fail has both nodes take the external lookup chain — the counter
only advances when the enriched node ends with a truthy latitude, which
the Unknown-country fallback (0,0) never supplies. -/
theorem claim_c3_counterexample :
    List.countP (fun p => p.2)
      (enrichNodesGo apiFail true 1 [c3Node, c3Node] 0) = 2 := by
  decide

theorem go_count_le (api : String → Option IpData) (useApi : Bool)
    (maxApiCalls : Nat) (ns : List VPNNode) :
    ∀ made, List.countP (fun p => p.2 && truthyF p.1.latitude)
      (enrichNodesGo api useApi maxApiCalls ns made) ≤ maxApiCalls - made := by
  induction ns with
  | nil => intro made; simp [enrichNodesGo]
  | cons n rest ih =>
    intro made
    simp only [enrichNodesGo, List.countP_cons]
    cases hu : (useApi && decide (made < maxApiCalls)) with
    | false =>
      rw [enrichNodeT_false]
      simp only [Bool.false_and, Bool.false_eq_true, if_false]
      have hrec := ih made
      omega
    | true =>
      have hlt : made < maxApiCalls := by
        rcases (Bool.and_eq_true _ _).mp hu with ⟨_, h2⟩
        exact of_decide_eq_true h2
      cases htr : truthyF (enrichNodeT api n true).1.latitude with
      | true =>
        simp only [htr, Bool.and_true, Bool.true_and, eq_self_iff_true,
          if_true]
        have hhead : (if (enrichNodeT api n true).2 = true then 1 else 0) ≤ 1 := by
          split <;> omega
        have hrec := ih (made + 1)
        omega
      | false =>
        simp only [htr, Bool.and_false, Bool.false_eq_true, if_false]
        have hrec := ih made
        omega

/-- C3, amended: enrich_nodes caps at max_api_calls the number of nodes
that take the external lookup chain and end with a truthy latitude (only
those advance the api_calls_made counter), and once the counter reaches
max_api_calls every remaining node is enriched purely offline; but a node
whose lookup-chain enrichment ends with a falsy latitude does not count
toward the cap, so the number of nodes taking the network path can exceed
max_api_calls. -/
theorem claim_c3_amended : ∀ (api : String → Option IpData) (useApi : Bool)
    (maxApiCalls : Nat) (ns : List VPNNode),
    List.countP (fun p => p.2 && truthyF p.1.latitude)
      (enrichNodesGo api useApi maxApiCalls ns 0) ≤ maxApiCalls ∧
    ∀ made, maxApiCalls ≤ made →
      enrichNodesGo api useApi maxApiCalls ns made =
        ns.map (fun n => (enrichNode (fun _ => none) n false, false)) := by
  intro api useApi maxApiCalls ns
  refine ⟨?_, go_saturated api useApi maxApiCalls ns⟩
  have h := go_count_le api useApi maxApiCalls ns 0
  simpa using h

/-- C3, witness: the saturated branch applied at cap 0 to a one-node
batch. -/
theorem claim_c3_witness :
    enrichNodesGo apiFail true 0 [c3Node] 0 =
      [c3Node].map (fun n => (enrichNode (fun _ => none) n false, false)) :=
  (claim_c3_amended apiFail true 0 [c3Node]).2 0 (le_refl 0)

/-! ## Claims about the cleaner -/

set_option maxRecDepth 4000

instance {α β : Type} [DecidableEq α] [DecidableEq β] :
    DecidableEq (Except α β) := fun x y => by
  cases x <;> cases y
  case error.error a b => exact decidable_of_iff (a = b) (by simp)
  case ok.ok a b => exact decidable_of_iff (a = b) (by simp)
  all_goals exact Decidable.isFalse (by simp)

/-- A raw table whose only column is the alternate spelling IP. -/
def c8Frame : DataFrame :=
  ⟨[("IP", DType.obj)], [[Cell.str "1.2.3.4"]]⟩

/-- A raw table with a canonical ip column and an alternate Country
column. -/
def c8FrameB : DataFrame :=
  ⟨[("ip", DType.obj), ("Country", DType.obj)],
   [[Cell.str "1.2.3.4", Cell.str "DE"]]⟩

/-- C8: the invalid-IP drop and the duplicate drop run BEFORE the
column renaming, keyed on the literal label ip.  A table whose IP column
is spelled IP (and has no ip column) therefore reaches
drop_duplicates(subset=[ip]) without an ip column and raises KeyError
instead of being renamed and cleaned; a table that does have an ip column
gets its other alternate spellings (here Country) renamed and is
returned cleaned. -/
theorem claim_c8 :
    cleanDataFrame c8Frame = Except.error "KeyError: ip" ∧
    cleanDataFrame c8FrameB =
      Except.ok ⟨[("ip", DType.obj), ("country", DType.obj)],
        [[Cell.str "1.2.3.4", Cell.str "DE"]]⟩ := by
  refine ⟨by decide, by decide⟩

/-- The raw table refuting idempotence of cleaning: an object ip column
holding a string and a Python int.  ip_address accepts the int 22, so the
row survives the validity drop, but the whitespace strip turns the
non-string cell into a missing value, which the second cleaning pass then
drops. -/
def c5Frame : DataFrame :=
  ⟨[("ip", DType.obj)], [[Cell.str "1.2.3.4"], [Cell.int 22]]⟩

/-- C5, counterexample: cleaning is not idempotent.  clean(c5Frame) keeps
both rows but nulls the int cell; cleaning that output again drops the
nulled row, so clean(clean(t)) has one row where clean(t) has two. -/
theorem claim_c5_counterexample :
    cleanDataFrame c5Frame =
      Except.ok ⟨[("ip", DType.obj)],
        [[Cell.str "1.2.3.4"], [Cell.null]]⟩ ∧
    cleanDataFrame ⟨[("ip", DType.obj)],
        [[Cell.str "1.2.3.4"], [Cell.null]]⟩ =
      Except.ok ⟨[("ip", DType.obj)], [[Cell.str "1.2.3.4"]]⟩ ∧
    (⟨[("ip", DType.obj)], [[Cell.str "1.2.3.4"], [Cell.null]]⟩ : DataFrame) ≠
      ⟨[("ip", DType.obj)], [[Cell.str "1.2.3.4"]]⟩ := by
  refine ⟨by decide, by decide, by decide⟩

/-! ## Infrastructure for the idempotence analysis of clean_dataframe -/

theorem listSetSelf {α : Type} (l : List α) (i : Nat) (v d : α)
    (h : l.getD i d = v) : l.set i v = l := by
  induction l generalizing i with
  | nil => rfl
  | cons a t ih =>
    cases i with
    | zero => simp [List.getD] at h; rw [List.set, h]
    | succ j =>
      simp only [List.set]
      rw [ih j]
      simpa [List.getD] using h

theorem cellAtSetNe (r : List Cell) (i j : Nat) (v : Cell) (h : i ≠ j) :
    cellAt (r.set j v) i = cellAt r i := by
  induction r generalizing i j with
  | nil => rfl
  | cons a t ih =>
    cases j with
    | zero =>
      cases i with
      | zero => exact absurd rfl h
      | succ k => rfl
    | succ j2 =>
      cases i with
      | zero => rfl
      | succ k =>
        simp only [List.set]
        exact ih k j2 (by omega)

theorem cellAtSetApp (r : List Cell) (i : Nat) (f : Cell → Cell)
    (hf : f Cell.null = Cell.null) :
    cellAt (r.set i (f (cellAt r i))) i = f (cellAt r i) := by
  induction r generalizing i with
  | nil =>
    show Cell.null = f Cell.null
    rw [hf]
  | cons a t ih =>
    cases i with
    | zero => rfl
    | succ j =>
      show cellAt (t.set j (f (cellAt t j))) j = f (cellAt t j)
      exact ih j

theorem listGetDSetSelf {α : Type} (l : List α) (i : Nat) (v d : α)
    (h : i < l.length) : (l.set i v).getD i d = v := by
  induction l generalizing i with
  | nil => simp at h
  | cons a t ih =>
    cases i with
    | zero => rfl
    | succ j =>
      simp only [List.set]
      exact ih j (by simpa using h)

theorem listGetDSetNe {α : Type} (l : List α) (i j : Nat) (v d : α)
    (h : i ≠ j) : (l.set j v).getD i d = l.getD i d := by
  induction l generalizing i j with
  | nil => rfl
  | cons a t ih =>
    cases j with
    | zero =>
      cases i with
      | zero => exact absurd rfl h
      | succ k => rfl
    | succ j2 =>
      cases i with
      | zero => rfl
      | succ k =>
        simp only [List.set]
        exact ih k j2 (by omega)

theorem listGetDMapFst (cs : List (String × DType)) (i : Nat) :
    (cs.map Prod.fst).getD i "" = (cs.getD i ("", DType.obj)).1 := by
  induction cs generalizing i with
  | nil => rfl
  | cons c t ih =>
    cases i with
    | zero => rfl
    | succ j => exact ih j

theorem dropWhileHeadFalse {α : Type} (p : α → Bool) (l : List α) (c : α)
    (t : List α) (h : l.dropWhile p = c :: t) : p c = false := by
  induction l with
  | nil => exact absurd h (by simp)
  | cons a l2 ih =>
    rw [List.dropWhile_cons] at h
    by_cases hp : p a = true
    · rw [if_pos hp] at h
      exact ih h
    · rw [if_neg hp] at h
      injection h with h1 _
      rw [← h1]
      exact Bool.not_eq_true _ ▸ hp

theorem dropWhileSelfOfHeadQ {α : Type} (p : α → Bool) (l : List α)
    (h : ∀ x, l.head? = some x → p x = false) : l.dropWhile p = l := by
  cases l with
  | nil => rfl
  | cons a t =>
    rw [List.dropWhile_cons, if_neg (by rw [h a rfl]; simp)]

theorem getLastQDropWhile {α : Type} (p : α → Bool) (l : List α)
    (h : l.dropWhile p ≠ []) : (l.dropWhile p).getLast? = l.getLast? := by
  induction l with
  | nil => simp at h
  | cons a t ih =>
    rw [List.dropWhile_cons]
    by_cases hp : p a = true
    · rw [if_pos hp]
      rw [List.dropWhile_cons, if_pos hp] at h
      rw [ih h]
      have ht : t ≠ [] := by
        intro h0
        rw [h0] at h
        simp at h
      obtain ⟨b, t2, rfl⟩ : ∃ b t2, t = b :: t2 := by
        cases t with
        | nil => exact absurd rfl ht
        | cons b t2 => exact ⟨b, t2, rfl⟩
      rw [List.getLast?_cons_cons]
    · rw [if_neg hp]

theorem trimCharsIdem (l : List Char) : trimChars (trimChars l) = trimChars l := by
  unfold trimChars
  cases hB : (l.dropWhile pyWs).reverse.dropWhile pyWs with
  | nil => simp
  | cons c t =>
    have hc : pyWs c = false := dropWhileHeadFalse pyWs _ c t hB
    have hAne : l.dropWhile pyWs ≠ [] := by
      intro h0
      rw [h0] at hB
      exact absurd hB (by simp)
    obtain ⟨a, A2, hA⟩ : ∃ a A2, l.dropWhile pyWs = a :: A2 := by
      cases hx : l.dropWhile pyWs with
      | nil => exact absurd hx hAne
      | cons x xs => exact ⟨x, xs, rfl⟩
    have ha : pyWs a = false := dropWhileHeadFalse pyWs l a A2 hA
    have h3 : (c :: t).getLast? = some a := by
      have h1 := getLastQDropWhile pyWs (l.dropWhile pyWs).reverse
        (by rw [hB]; simp)
      rw [hB] at h1
      rw [h1, List.getLast?_reverse, hA]
      rfl
    have h5 : ((c :: t).reverse).dropWhile pyWs = (c :: t).reverse := by
      refine dropWhileSelfOfHeadQ pyWs _ (fun x hx => ?_)
      rw [List.head?_reverse, h3] at hx
      cases hx
      exact ha
    rw [h5, List.reverse_reverse,
      show (c :: t).dropWhile pyWs = c :: t from by
        rw [List.dropWhile_cons, if_neg (by rw [hc]; simp)]]

theorem pyStripIdem (s : String) : pyStrip (pyStrip s) = pyStrip s := by
  unfold pyStrip
  rw [show (String.mk (trimChars s.data)).data = trimChars s.data from rfl,
    trimCharsIdem]

theorem truncQIntCast (k : ℤ) : truncQ (k : ℚ) = k := by
  unfold truncQ
  by_cases h : (0 : ℚ) ≤ (k : ℚ)
  · rw [if_pos h, Int.floor_intCast]
  · rw [if_neg h, Int.ceil_intCast]

theorem portCoerceCellNull : portCoerceCell Cell.null = Cell.null := by
  unfold portCoerceCell
  rw [show ((numParse Cell.null).getD 0) = ((0 : ℤ) : ℚ) from by norm_num [numParse],
    truncQIntCast]
  rfl

theorem portCoerceCellFix (c : Cell) :
    portCoerceCell (portCoerceCell c) = portCoerceCell c := by
  by_cases h : truncQ ((numParse c).getD 0) = 0
  · have h1 : portCoerceCell c = Cell.null := by
      unfold portCoerceCell
      rw [if_pos h]
    rw [h1, portCoerceCellNull]
  · have h1 : portCoerceCell c =
        Cell.float ((truncQ ((numParse c).getD 0) : ℤ) : ℚ) := by
      unfold portCoerceCell
      rw [if_neg h]
    rw [h1]
    unfold portCoerceCell
    rw [show ((numParse (Cell.float ((truncQ ((numParse c).getD 0) : ℤ) : ℚ))).getD 0)
        = ((truncQ ((numParse c).getD 0) : ℤ) : ℚ) from rfl,
      truncQIntCast, if_neg h]

theorem latlonCellFix (c : Cell) : latlonCell (latlonCell c) = latlonCell c := by
  cases hv : numParse c with
  | none =>
    have h1 : latlonCell c = Cell.null := by
      unfold latlonCell
      rw [hv]
    rw [h1]
    rfl
  | some q =>
    have h1 : latlonCell c = Cell.float q := by
      unfold latlonCell
      rw [hv]
    rw [h1]
    rfl

theorem stripCellFix (c : Cell) : stripCell (stripCell c) = stripCell c := by
  cases c with
  | str s =>
    show Cell.str (pyStrip (pyStrip s)) = Cell.str (pyStrip s)
    rw [pyStripIdem]
  | int n => rfl
  | float q => rfl
  | null => rfl

/-! ### Rename analysis -/

/-- The effect of one rename table entry on one column header. -/
def renameStep (c : String × DType) (p : String × String) : String × DType :=
  if c.1 = p.1 then (p.2, c.2) else c

/-- The effect of the whole rename table on one column header. -/
def renameCell (c : String × DType) : String × DType :=
  columnMapping.foldl renameStep c

/-- The effect of one rename table entry on a column name. -/
def rnStep (x : String) (p : String × String) : String :=
  if x = p.1 then p.2 else x

/-- The effect of the whole rename table on a column name. -/
def rn (x : String) : String := columnMapping.foldl rnStep x

/-- The alternate spellings recognized by the rename table. -/
def sourcesList : List String := columnMapping.map Prod.fst

theorem mapIdOfMem {α : Type} {f : α → α} (l : List α)
    (h : ∀ x ∈ l, f x = x) : l.map f = l := by
  induction l with
  | nil => rfl
  | cons a t ih =>
    rw [List.map_cons, h a (by simp), ih (fun x hx => h x (by simp [hx]))]

theorem mapCongrMem {α β : Type} {f g : α → β} (l : List α)
    (h : ∀ x ∈ l, f x = g x) : l.map f = l.map g := by
  induction l with
  | nil => rfl
  | cons a t ih =>
    rw [List.map_cons, List.map_cons, h a (by simp),
      ih (fun x hx => h x (by simp [hx]))]

theorem renameOneEqMap (cs : List (String × DType)) (p : String × String) :
    renameOne cs p = cs.map (fun c => renameStep c p) := by
  unfold renameOne
  split_ifs with h
  · rfl
  · refine (mapIdOfMem cs fun c hc => ?_).symm
    unfold renameStep
    rw [if_neg]
    intro hcp
    exact h (List.any_eq_true.mpr ⟨c, hc, by simpa using hcp⟩)

theorem foldlRenameEq (M : List (String × String)) :
    ∀ cs : List (String × DType),
      M.foldl renameOne cs = cs.map (fun c => M.foldl renameStep c) := by
  induction M with
  | nil => intro cs; simp
  | cons p M ih =>
    intro cs
    show M.foldl renameOne (renameOne cs p) = _
    rw [renameOneEqMap, ih, List.map_map]
    rfl

theorem renameColsEqMap (cs : List (String × DType)) :
    renameCols cs = cs.map renameCell :=
  foldlRenameEq columnMapping cs

theorem foldlStepFst (M : List (String × String)) :
    ∀ c : String × DType, (M.foldl renameStep c).1 = M.foldl rnStep c.1 := by
  induction M with
  | nil => intro c; rfl
  | cons p M ih =>
    intro c
    show (M.foldl renameStep (renameStep c p)).1 = _
    rw [ih (renameStep c p)]
    have h1 : (renameStep c p).1 = rnStep c.1 p := by
      unfold renameStep rnStep
      split_ifs <;> rfl
    rw [h1]
    rfl

theorem foldlStepSnd (M : List (String × String)) :
    ∀ c : String × DType, (M.foldl renameStep c).2 = c.2 := by
  induction M with
  | nil => intro c; rfl
  | cons p M ih =>
    intro c
    show (M.foldl renameStep (renameStep c p)).2 = _
    rw [ih (renameStep c p)]
    unfold renameStep
    split_ifs <;> rfl

theorem renameCellFst (c : String × DType) : (renameCell c).1 = rn c.1 :=
  foldlStepFst columnMapping c

theorem renameCellSnd (c : String × DType) : (renameCell c).2 = c.2 :=
  foldlStepSnd columnMapping c

theorem foldlRnId (M : List (String × String)) (x : String)
    (h : ∀ p ∈ M, x ≠ p.1) : M.foldl rnStep x = x := by
  induction M with
  | nil => rfl
  | cons p M ih =>
    show M.foldl rnStep (rnStep x p) = x
    rw [show rnStep x p = x from by
      unfold rnStep
      rw [if_neg (h p (by simp))]]
    exact ih (fun q hq => h q (by simp [hq]))

theorem rnIdOfNotSrc (x : String) (h : x ∉ sourcesList) : rn x = x :=
  foldlRnId columnMapping x (by
    intro p hp hxp
    exact h (by
      unfold sourcesList
      exact List.mem_map.mpr ⟨p, hp, hxp.symm⟩))

set_option maxHeartbeats 1000000 in
theorem rnNotSource (x : String) : rn x ∉ sourcesList := by
  by_cases hx : x ∈ sourcesList
  · have : x = "IP" ∨ x = "Port" ∨ x = "Country" ∨ x = "ASN" ∨ x = "ISP" ∨
        x = "First Seen" ∨ x = "Last Seen" ∨ x = "Latitude" ∨
        x = "Longitude" := by
      simpa [sourcesList, columnMapping] using hx
    rcases this with h|h|h|h|h|h|h|h|h <;> subst h <;> decide
  · rw [rnIdOfNotSrc x hx]
    exact hx

theorem renameCellNotSource (c : String × DType) :
    (renameCell c).1 ∉ sourcesList := by
  rw [renameCellFst]
  exact rnNotSource c.1

theorem renameCellIdOfNotSource (c : String × DType)
    (h : c.1 ∉ sourcesList) : renameCell c = c := by
  refine Prod.ext ?_ (renameCellSnd c)
  rw [renameCellFst]
  exact rnIdOfNotSrc c.1 h

theorem renameColsFixOf (cs : List (String × DType))
    (h : ∀ c ∈ cs, c.1 ∉ sourcesList) : renameCols cs = cs := by
  rw [renameColsEqMap]
  exact mapIdOfMem cs (fun c hc => renameCellIdOfNotSource c (h c hc))

theorem renameColsNames (cs : List (String × DType)) :
    (renameCols cs).map Prod.fst = (cs.map Prod.fst).map rn := by
  rw [renameColsEqMap, List.map_map, List.map_map]
  refine mapCongrMem cs (fun c _ => ?_)
  simp only [Function.comp_apply]
  exact renameCellFst c

theorem renamedNamesNotSource (cs : List (String × DType)) :
    ∀ x ∈ (renameCols cs).map Prod.fst, x ∉ sourcesList := by
  intro x hx
  rw [renameColsNames] at hx
  obtain ⟨y, _, rfl⟩ := List.mem_map.mp hx
  exact rnNotSource y

/-! ### Indexing lemmas -/

theorem getDMem {α : Type} (l : List α) (i : Nat) (d : α)
    (h : i < l.length) : l.getD i d ∈ l := by
  induction l generalizing i with
  | nil => simp at h
  | cons a t ih =>
    cases i with
    | zero => simp [List.getD]
    | succ j =>
      have := ih j (by simpa using h)
      simp only [List.getD] at this ⊢
      exact List.mem_cons_of_mem a this

theorem findNameIdxLt (nm : String) (cs : List (String × DType)) (i : Nat)
    (h : findNameIdx nm cs = some i) : i < cs.length := by
  induction cs generalizing i with
  | nil => exact absurd h (by simp [findNameIdx])
  | cons c t ih =>
    unfold findNameIdx at h
    split_ifs at h with h0
    · cases h
      simp
    · obtain ⟨j, hj, rfl⟩ := Option.map_eq_some'.mp h
      have := ih j hj
      simpa using this

theorem findNameIdxName (nm : String) (cs : List (String × DType)) (i : Nat)
    (d : String × DType) (h : findNameIdx nm cs = some i) :
    (cs.getD i d).1 = nm := by
  induction cs generalizing i with
  | nil => exact absurd h (by simp [findNameIdx])
  | cons c t ih =>
    unfold findNameIdx at h
    split_ifs at h with h0
    · cases h
      exact h0
    · obtain ⟨j, hj, rfl⟩ := Option.map_eq_some'.mp h
      exact ih j hj

theorem findNameIdxCongr (nm : String) (cs cs2 : List (String × DType))
    (h : cs.map Prod.fst = cs2.map Prod.fst) :
    findNameIdx nm cs = findNameIdx nm cs2 := by
  induction cs generalizing cs2 with
  | nil =>
    cases cs2 with
    | nil => rfl
    | cons c2 t2 => simp at h
  | cons c t ih =>
    cases cs2 with
    | nil => simp at h
    | cons c2 t2 =>
      simp only [List.map_cons, List.cons.injEq] at h
      unfold findNameIdx
      rw [h.1, ih t2 h.2]

theorem findNameIdxNodup (nm : String) (cs : List (String × DType)) (i : Nat)
    (hn : (cs.map Prod.fst).Nodup) (hi : i < cs.length)
    (hname : (cs.getD i ("", DType.obj)).1 = nm) :
    findNameIdx nm cs = some i := by
  induction cs generalizing i with
  | nil => simp at hi
  | cons c t ih =>
    rw [List.map_cons, List.nodup_cons] at hn
    unfold findNameIdx
    by_cases h0 : c.1 = nm
    · rw [if_pos h0]
      cases i with
      | zero => rfl
      | succ j =>
        exfalso
        have hj : j < t.length := by simpa using hi
        have hmem : t.getD j ("", DType.obj) ∈ t := getDMem t j _ hj
        have hin : nm ∈ t.map Prod.fst := by
          rw [← hname]
          exact List.mem_map.mpr ⟨_, hmem, rfl⟩
        exact hn.1 (by rw [h0]; exact hin)
    · rw [if_neg h0]
      cases i with
      | zero => exact absurd hname h0
      | succ j =>
        rw [ih j hn.2 (by simpa using hi) hname]
        rfl

theorem countPNameLe (cs : List (String × DType)) (nm : String)
    (h : (cs.map Prod.fst).Nodup) :
    cs.countP (fun c => decide (c.1 = nm)) ≤ 1 := by
  induction cs with
  | nil => simp
  | cons c t ih =>
    rw [List.map_cons, List.nodup_cons] at h
    rw [List.countP_cons]
    by_cases h0 : c.1 = nm
    · have hzero : t.countP (fun c => decide (c.1 = nm)) = 0 := by
        rw [List.countP_eq_zero]
        intro x hx hdec
        exact h.1 (by
          rw [show c.1 = x.1 from by rw [h0, of_decide_eq_true hdec]]
          exact List.mem_map.mpr ⟨x, hx, rfl⟩)
      rw [hzero]
      simp [h0]
    · have hD : decide (c.1 = nm) = false := by simp [h0]
      rw [hD]
      have := ih h.2
      simp only [Bool.false_eq_true, if_false]
      omega

theorem countNameLeOne (df : DataFrame) (nm : String)
    (h : (df.cols.map Prod.fst).Nodup) : countName df nm ≤ 1 := by
  unfold countName
  exact countPNameLe df.cols nm h

/-! ### Deduplication lemmas -/

theorem dedupAuxMem (i : Nat) :
    ∀ (rows : List (List Cell)) (seen : List Cell) (r : List Cell),
      r ∈ dedupAux i rows seen → r ∈ rows := by
  intro rows
  induction rows with
  | nil => intro seen r h; exact absurd h (by simp [dedupAux])
  | cons r0 rest ih =>
    intro seen r h
    unfold dedupAux at h
    split_ifs at h with hs
    · exact List.mem_cons_of_mem r0 (ih seen r h)
    · rcases List.mem_cons.mp h with h1 | h1
      · exact h1 ▸ List.mem_cons_self r0 rest
      · exact List.mem_cons_of_mem r0 (ih _ r h1)

theorem dedupAuxSeenFalse (i : Nat) :
    ∀ (rows : List (List Cell)) (seen : List Cell) (r : List Cell),
      r ∈ dedupAux i rows seen →
      ∀ k ∈ seen, cellEqv k (cellAt r i) = false := by
  intro rows
  induction rows with
  | nil => intro seen r h; exact absurd h (by simp [dedupAux])
  | cons r0 rest ih =>
    intro seen r h k hk
    unfold dedupAux at h
    split_ifs at h with hs
    · exact ih seen r h k hk
    · rcases List.mem_cons.mp h with h1 | h1
      · subst h1
        have : ¬ (seen.any fun k2 => cellEqv k2 (cellAt r i)) = true := hs
        rw [List.any_eq_true] at this
        push_neg at this
        have h2 := this k hk
        cases hcv : cellEqv k (cellAt r i) with
        | false => rfl
        | true => exact absurd hcv h2
      · exact ih _ r h1 k (List.mem_cons_of_mem _ hk)

theorem dedupAuxPairwise (i : Nat) :
    ∀ (rows : List (List Cell)) (seen : List Cell),
      (dedupAux i rows seen).Pairwise
        (fun a b => cellEqv (cellAt a i) (cellAt b i) = false) := by
  intro rows
  induction rows with
  | nil => intro seen; simp [dedupAux]
  | cons r0 rest ih =>
    intro seen
    unfold dedupAux
    split_ifs with hs
    · exact ih seen
    · refine List.Pairwise.cons ?_ (ih _)
      intro b hb
      exact dedupAuxSeenFalse i rest _ b hb (cellAt r0 i) (by simp)

theorem dedupAuxEqSelf (i : Nat) :
    ∀ (rows : List (List Cell)) (seen : List Cell),
      rows.Pairwise (fun a b => cellEqv (cellAt a i) (cellAt b i) = false) →
      (∀ r ∈ rows, ∀ k ∈ seen, cellEqv k (cellAt r i) = false) →
      dedupAux i rows seen = rows := by
  intro rows
  induction rows with
  | nil => intro seen _ _; rfl
  | cons r0 rest ih =>
    intro seen hpw hseen
    have hany : (seen.any fun k => cellEqv k (cellAt r0 i)) = false := by
      rw [List.any_eq_false]
      intro k hk
      rw [hseen r0 (by simp) k hk]
      simp
    unfold dedupAux
    rw [if_neg (by rw [hany]; simp)]
    rw [ih (cellAt r0 i :: seen) (List.Pairwise.of_cons hpw) ?_]
    intro r hr k hk
    rcases List.mem_cons.mp hk with h1 | h1
    · subst h1
      exact (List.pairwise_cons.mp hpw).1 r hr
    · exact hseen r (List.mem_cons_of_mem _ hr) k h1

/-! ### Strip lemmas -/

theorem stripRowNil (r : List Cell) : stripRow [] r = r := by
  induction r with
  | nil => rfl
  | cons c rest ih => rw [show stripRow [] (c :: rest) = c :: stripRow [] rest from rfl, ih]

theorem stripRowCons (col : String × DType) (cols2 : List (String × DType))
    (c : Cell) (rest : List Cell) :
    stripRow (col :: cols2) (c :: rest) =
      (if col.2 = DType.obj then stripCell c else c) :: stripRow cols2 rest :=
  rfl

theorem stripRowIdem (cols : List (String × DType)) (r : List Cell) :
    stripRow cols (stripRow cols r) = stripRow cols r := by
  induction r generalizing cols with
  | nil => cases cols <;> rfl
  | cons c rest ih =>
    cases cols with
    | nil => rw [stripRowNil, stripRowNil]
    | cons col cols2 =>
      rw [stripRowCons col cols2 c rest]
      by_cases h : col.2 = DType.obj
      · rw [if_pos h, stripRowCons col cols2 (stripCell c) (stripRow cols2 rest),
          if_pos h, stripCellFix, ih]
      · rw [if_neg h, stripRowCons col cols2 c (stripRow cols2 rest),
          if_neg h, ih]

theorem cellAtStripRow (cols : List (String × DType)) (r : List Cell) (i : Nat) :
    cellAt (stripRow cols r) i =
      if (cols.getD i ("", DType.num)).2 = DType.obj then
        stripCell (cellAt r i)
      else cellAt r i := by
  induction r generalizing cols i with
  | nil =>
    rw [show stripRow cols [] = [] from by cases cols <;> rfl]
    rw [show cellAt ([] : List Cell) i = Cell.null from rfl]
    split <;> rfl
  | cons c rest ih =>
    cases cols with
    | nil =>
      rw [stripRowNil]
      rw [if_neg (by simp [List.getD])]
    | cons col cols2 =>
      cases i with
      | zero =>
        show (if col.2 = DType.obj then stripCell c else c) = _
        rfl
      | succ j =>
        show cellAt (stripRow cols2 rest) j = _
        exact ih cols2 j

/-! ### Column coercion lemmas -/

/-- Optional positional update used by the numeric coercions. -/
def applyAt (j? : Option Nat) (f : Cell → Cell) (r : List Cell) : List Cell :=
  match j? with
  | none => r
  | some j => r.set j (f (cellAt r j))

/-- The successful result of coerceNumericCol. -/
def coerceTotal (df : DataFrame) (nm : String) (f : Cell → Cell) : DataFrame :=
  match findNameIdx nm df.cols with
  | none => df
  | some i => mapNumCol df i f

theorem coerceNumericColOk (df : DataFrame) (nm : String) (f : Cell → Cell)
    (h : countName df nm ≤ 1) :
    coerceNumericCol df nm f = Except.ok (coerceTotal df nm f) := by
  unfold coerceNumericCol coerceTotal
  cases hf : findNameIdx nm df.cols with
  | none => rfl
  | some i =>
    dsimp only
    rw [if_neg (by omega)]

theorem coerceTotalRows (df : DataFrame) (nm : String) (f : Cell → Cell) :
    (coerceTotal df nm f).rows =
      df.rows.map (applyAt (findNameIdx nm df.cols) f) := by
  unfold coerceTotal
  cases hf : findNameIdx nm df.cols with
  | none =>
    show df.rows = df.rows.map (applyAt none f)
    exact (mapIdOfMem df.rows (fun r _ => rfl)).symm
  | some i => rfl

theorem coerceTotalColsNames (df : DataFrame) (nm : String) (f : Cell → Cell) :
    (coerceTotal df nm f).cols.map Prod.fst = df.cols.map Prod.fst := by
  unfold coerceTotal
  cases hf : findNameIdx nm df.cols with
  | none => rfl
  | some i =>
    show (df.cols.set i ((df.cols.getD i ("", DType.obj)).1, DType.num)).map
        Prod.fst = df.cols.map Prod.fst
    rw [List.map_set]
    exact listSetSelf _ i _ "" (listGetDMapFst df.cols i)

theorem cellAtApplyAtNe (j? : Option Nat) (f : Cell → Cell) (r : List Cell)
    (i : Nat) (h : ∀ j, j? = some j → j ≠ i) :
    cellAt (applyAt j? f r) i = cellAt r i := by
  cases j? with
  | none => rfl
  | some j => exact cellAtSetNe r i j _ (fun h0 => (h j rfl) h0.symm)

theorem cellAtApplyAtSelf (j : Nat) (f : Cell → Cell) (r : List Cell)
    (hf : f Cell.null = Cell.null) :
    cellAt (applyAt (some j) f r) j = f (cellAt r j) :=
  cellAtSetApp r j f hf

/-! ### Step equations for clean_dataframe -/

theorem listGetDDefault {α : Type} (l : List α) (i : Nat) (d d2 : α)
    (h : i < l.length) : l.getD i d = l.getD i d2 := by
  induction l generalizing i with
  | nil => simp at h
  | cons a t ih =>
    cases i with
    | zero => rfl
    | succ j => exact ih j (by simpa using h)

theorem listGetDMapGen {α β : Type} (f : α → β) (l : List α) (i : Nat)
    (d : α) : (l.map f).getD i (f d) = f (l.getD i d) := by
  induction l generalizing i with
  | nil => rfl
  | cons a t ih =>
    cases i with
    | zero => rfl
    | succ j => exact ih j

theorem dropInvalidIpsEq (df : DataFrame) (i0 : Nat)
    (h : findIpIdx df = some i0) :
    dropInvalidIps df =
      ⟨df.cols, df.rows.filter
        (fun r => validIpCell (dtypeAt df i0) (cellAt r i0))⟩ := by
  unfold dropInvalidIps
  rw [h]

theorem dropDupIpsEq (df : DataFrame) (i0 : Nat)
    (h : findIpIdx df = some i0) :
    dropDupIps df = Except.ok ⟨df.cols, dedupAux i0 df.rows []⟩ := by
  unfold dropDupIps
  rw [h]

theorem dropDupIpsNone (df : DataFrame) (h : findIpIdx df = none) :
    dropDupIps df = Except.error "KeyError: ip" := by
  unfold dropDupIps
  rw [h]

theorem stripStepOk (df : DataFrame)
    (h : (df.cols.map Prod.fst).Nodup) :
    stripStep df = Except.ok ⟨df.cols, df.rows.map (stripRow df.cols)⟩ := by
  unfold stripStep
  rw [if_neg]
  intro hany
  rw [List.any_eq_true] at hany
  obtain ⟨c, hc, hcond⟩ := hany
  rw [Bool.and_eq_true] at hcond
  have hcount : countName df c.1 ≤ 1 := countNameLeOne df c.1 h
  have := of_decide_eq_true hcond.2
  omega

theorem cleanDataFrameEq (df : DataFrame) :
    cleanDataFrame df =
      (dropDupIps (dropInvalidIps df)).bind (fun d2 =>
        (coerceNumericCol (renameColumns d2) "port" portCoerceCell).bind
          (fun d4 =>
            (coerceNumericCol d4 "latitude" latlonCell).bind (fun d5 =>
              (coerceNumericCol d5 "longitude" latlonCell).bind stripStep))) :=
  rfl

/-- Boolean wellformedness of the ip column used by the idempotence
claim: every ip cell is a whitespace-trimmed string. -/
def ipColumnStrTrimmed (df : DataFrame) : Bool :=
  match findIpIdx df with
  | none => true
  | some i =>
    df.rows.all (fun r =>
      match cellAt r i with
      | Cell.str s => pyStrip s = s
      | _ => false)

theorem ipCellsFact (df : DataFrame) (i0 : Nat)
    (h1 : findIpIdx df = some i0) (h2 : ipColumnStrTrimmed df = true) :
    ∀ r ∈ df.rows, ∃ s, cellAt r i0 = Cell.str s ∧ pyStrip s = s := by
  intro r hr
  unfold ipColumnStrTrimmed at h2
  rw [h1] at h2
  have h3 := (List.all_eq_true.mp h2) r hr
  cases hc : cellAt r i0 with
  | str s =>
    rw [hc] at h3
    exact ⟨s, rfl, of_decide_eq_true h3⟩
  | int n => rw [hc] at h3; exact absurd h3 (by simp)
  | float q => rw [hc] at h3; exact absurd h3 (by simp)
  | null => rw [hc] at h3; exact absurd h3 (by simp)

theorem validIpCellStr (dt : DType) (s : String) :
    validIpCell dt (Cell.str s) = validIpStr s := rfl

theorem exceptBindOk {ε α β : Type} (v : α) (f : α → Except ε β) :
    (Except.ok v : Except ε α).bind f = f v := rfl

theorem listGetDMapGen2 {α β : Type} (f : α → β) (l : List α) (i : Nat)
    (d : α) (d2 : β) (hd : f d = d2) : (l.map f).getD i d2 = f (l.getD i d) := by
  rw [← hd]
  exact listGetDMapGen f l i d

theorem coerceTotalColsOfSome (df : DataFrame) (nm : String)
    (f : Cell → Cell) (j : Nat) (h : findNameIdx nm df.cols = some j) :
    (coerceTotal df nm f).cols =
      df.cols.set j ((df.cols.getD j ("", DType.obj)).1, DType.num) := by
  unfold coerceTotal
  rw [h]
  rfl

theorem dtypeCoerceSelf (df : DataFrame) (nm : String) (f : Cell → Cell)
    (j : Nat) (h : findNameIdx nm df.cols = some j) :
    ((coerceTotal df nm f).cols.getD j ("", DType.obj)).2 = DType.num := by
  rw [coerceTotalColsOfSome df nm f j h,
    listGetDSetSelf df.cols j _ _ (findNameIdxLt nm df.cols j h)]

theorem dtypeCoerceOther (df : DataFrame) (nm : String) (f : Cell → Cell)
    (i : Nat) (h : ∀ j, findNameIdx nm df.cols = some j → j ≠ i) :
    (coerceTotal df nm f).cols.getD i ("", DType.obj) =
      df.cols.getD i ("", DType.obj) := by
  unfold coerceTotal
  cases hf : findNameIdx nm df.cols with
  | none => rfl
  | some j =>
    show (df.cols.set j _).getD i _ = _
    exact listGetDSetNe df.cols i j _ _ (fun he => (h j hf) he.symm)

/-- The composite action of the renamed-frame pipeline tail (port
coercion, latitude and longitude coercion, whitespace strip) on one
row, with the column lookups taken in the renamed header c3 and the
strip dtypes in the final header c6. -/
def cleanRowPass (c3 c6 : List (String × DType)) (r : List Cell) :
    List Cell :=
  stripRow c6
    (applyAt (findNameIdx "longitude" c3) latlonCell
      (applyAt (findNameIdx "latitude" c3) latlonCell
        (applyAt (findNameIdx "port" c3) portCoerceCell r)))

theorem cleanRowPassIp (c3 c6 : List (String × DType)) (r : List Cell)
    (i : Nat) (s : String)
    (hp : ∀ j, findNameIdx "port" c3 = some j → j ≠ i)
    (hla : ∀ j, findNameIdx "latitude" c3 = some j → j ≠ i)
    (hlo : ∀ j, findNameIdx "longitude" c3 = some j → j ≠ i)
    (hs : cellAt r i = Cell.str s) (htrim : pyStrip s = s) :
    cellAt (cleanRowPass c3 c6 r) i = cellAt r i := by
  unfold cleanRowPass
  rw [cellAtStripRow, cellAtApplyAtNe _ _ _ _ hlo,
    cellAtApplyAtNe _ _ _ _ hla, cellAtApplyAtNe _ _ _ _ hp, hs]
  split
  · show Cell.str (pyStrip s) = Cell.str s
    rw [htrim]
  · rfl

theorem cleanRowPassPort (c3 c6 : List (String × DType)) (r : List Cell)
    (j : Nat) (hj : findNameIdx "port" c3 = some j)
    (hla : ∀ j2, findNameIdx "latitude" c3 = some j2 → j2 ≠ j)
    (hlo : ∀ j2, findNameIdx "longitude" c3 = some j2 → j2 ≠ j)
    (hdt : ¬(c6.getD j ("", DType.num)).2 = DType.obj) :
    cellAt (cleanRowPass c3 c6 r) j = portCoerceCell (cellAt r j) := by
  unfold cleanRowPass
  rw [cellAtStripRow, if_neg hdt, cellAtApplyAtNe _ _ _ _ hlo,
    cellAtApplyAtNe _ _ _ _ hla, hj,
    cellAtApplyAtSelf j portCoerceCell r portCoerceCellNull]

theorem cleanRowPassLat (c3 c6 : List (String × DType)) (r : List Cell)
    (j : Nat) (hj : findNameIdx "latitude" c3 = some j)
    (hp : ∀ j2, findNameIdx "port" c3 = some j2 → j2 ≠ j)
    (hlo : ∀ j2, findNameIdx "longitude" c3 = some j2 → j2 ≠ j)
    (hdt : ¬(c6.getD j ("", DType.num)).2 = DType.obj) :
    cellAt (cleanRowPass c3 c6 r) j = latlonCell (cellAt r j) := by
  unfold cleanRowPass
  rw [cellAtStripRow, if_neg hdt, cellAtApplyAtNe _ _ _ _ hlo, hj,
    cellAtApplyAtSelf j latlonCell _ rfl, cellAtApplyAtNe _ _ _ _ hp]

theorem cleanRowPassLon (c3 c6 : List (String × DType)) (r : List Cell)
    (j : Nat) (hj : findNameIdx "longitude" c3 = some j)
    (hp : ∀ j2, findNameIdx "port" c3 = some j2 → j2 ≠ j)
    (hla : ∀ j2, findNameIdx "latitude" c3 = some j2 → j2 ≠ j)
    (hdt : ¬(c6.getD j ("", DType.num)).2 = DType.obj) :
    cellAt (cleanRowPass c3 c6 r) j = latlonCell (cellAt r j) := by
  unfold cleanRowPass
  rw [cellAtStripRow, if_neg hdt, hj,
    cellAtApplyAtSelf j latlonCell _ rfl, cellAtApplyAtNe _ _ _ _ hla,
    cellAtApplyAtNe _ _ _ _ hp]

theorem cleanRowPassStripFix (c3 c6 : List (String × DType))
    (r : List Cell) :
    stripRow c6 (cleanRowPass c3 c6 r) = cleanRowPass c3 c6 r := by
  unfold cleanRowPass
  exact stripRowIdem c6 _

theorem exceptBindErr {ε α β : Type} (e : ε) (f : α → Except ε β) :
    (Except.error e : Except ε α).bind f = Except.error e := rfl

set_option maxHeartbeats 1000000 in
/-- C5, amended: cleaning is idempotent on tables whose canonical
(renamed) column labels are pairwise distinct and whose ip column holds
only whitespace-trimmed strings: if clean_dataframe succeeds on such a
table with result u, then cleaning u succeeds and returns u unchanged.
(Without these provisos the claim fails: non-string ip cells that
survive the first pass are NaN-ed by the strip step and dropped by the
second pass, as the counterexample shows.) -/
theorem claim_c5_amended (df u : DataFrame)
    (hnodup : ((renameCols df.cols).map Prod.fst).Nodup)
    (hip : ipColumnStrTrimmed df = true)
    (hcl : cleanDataFrame df = Except.ok u) :
    cleanDataFrame u = Except.ok u := by
  cases hfi : findIpIdx df with
  | none =>
    exfalso
    have h1 : dropInvalidIps df = df := by
      unfold dropInvalidIps
      rw [hfi]
    rw [cleanDataFrameEq, h1, dropDupIpsNone df hfi, exceptBindErr] at hcl
    exact Except.noConfusion hcl
  | some i0 =>
    have hi0lt : i0 < df.cols.length := findNameIdxLt "ip" df.cols i0 hfi
    obtain ⟨rows2, hrows2⟩ : ∃ rows2, rows2 = dedupAux i0 (df.rows.filter
        (fun r => validIpCell (dtypeAt df i0) (cellAt r i0))) [] := ⟨_, rfl⟩
    have h1 : dropInvalidIps df = ⟨df.cols, df.rows.filter
        (fun r => validIpCell (dtypeAt df i0) (cellAt r i0))⟩ :=
      dropInvalidIpsEq df i0 hfi
    have hfi1 : findIpIdx (⟨df.cols, df.rows.filter
        (fun r => validIpCell (dtypeAt df i0) (cellAt r i0))⟩ : DataFrame) =
        some i0 := hfi
    have h2 : dropDupIps (dropInvalidIps df) =
        Except.ok (⟨df.cols, rows2⟩ : DataFrame) := by
      rw [h1, dropDupIpsEq _ i0 hfi1, hrows2]
    have hmem2 : ∀ r ∈ rows2, r ∈ df.rows ∧
        validIpCell (dtypeAt df i0) (cellAt r i0) = true := by
      intro r hr
      rw [hrows2] at hr
      have h3 := dedupAuxMem i0 _ [] r hr
      have h4 := List.mem_filter.mp h3
      exact ⟨h4.1, h4.2⟩
    have hpw2 : rows2.Pairwise
        (fun a b => cellEqv (cellAt a i0) (cellAt b i0) = false) := by
      rw [hrows2]
      exact dedupAuxPairwise i0 _ []
    have hipstr : ∀ r ∈ rows2, ∃ s, cellAt r i0 = Cell.str s ∧
        pyStrip s = s ∧ validIpStr s = true := by
      intro r hr
      obtain ⟨hrdf, hval⟩ := hmem2 r hr
      obtain ⟨s, hs, htrim⟩ := ipCellsFact df i0 hfi hip r hrdf
      refine ⟨s, hs, htrim, ?_⟩
      rw [hs, validIpCellStr] at hval
      exact hval
    obtain ⟨cols3, hcols3⟩ : ∃ cols3, cols3 = renameCols df.cols := ⟨_, rfl⟩
    have hren : renameColumns (⟨df.cols, rows2⟩ : DataFrame) =
        (⟨cols3, rows2⟩ : DataFrame) := by
      rw [hcols3]
      rfl
    have hnodup3 : (cols3.map Prod.fst).Nodup := by
      rw [hcols3]
      exact hnodup
    have hn3 : cols3.map Prod.fst = (df.cols.map Prod.fst).map rn := by
      rw [hcols3]
      exact renameColsNames df.cols
    have hlen3 : cols3.length = df.cols.length := by
      have h := congrArg List.length hn3
      simpa using h
    have hrnempty : rn "" = "" := by decide
    have hrnip : rn "ip" = "ip" := by decide
    have hnamedf : (df.cols.getD i0 ("", DType.obj)).1 = "ip" :=
      findNameIdxName "ip" df.cols i0 ("", DType.obj) hfi
    have hname3 : (cols3.getD i0 ("", DType.obj)).1 = "ip" := by
      rw [← listGetDMapFst, hn3,
        listGetDMapGen2 rn (df.cols.map Prod.fst) i0 "" "" hrnempty,
        listGetDMapFst, hnamedf, hrnip]
    have hc4 : coerceNumericCol (⟨cols3, rows2⟩ : DataFrame) "port"
        portCoerceCell = Except.ok (coerceTotal ⟨cols3, rows2⟩ "port"
          portCoerceCell) :=
      coerceNumericColOk _ _ _ (countNameLeOne _ "port" hnodup3)
    obtain ⟨d4, hd4⟩ : ∃ d4, d4 = coerceTotal ⟨cols3, rows2⟩ "port"
        portCoerceCell := ⟨_, rfl⟩
    have hn4 : d4.cols.map Prod.fst = cols3.map Prod.fst := by
      rw [hd4]
      exact coerceTotalColsNames _ "port" _
    have hnodup4 : (d4.cols.map Prod.fst).Nodup := by
      rw [hn4]
      exact hnodup3
    have hc5 : coerceNumericCol d4 "latitude" latlonCell =
        Except.ok (coerceTotal d4 "latitude" latlonCell) :=
      coerceNumericColOk _ _ _ (countNameLeOne _ "latitude" hnodup4)
    obtain ⟨d5, hd5⟩ : ∃ d5, d5 = coerceTotal d4 "latitude" latlonCell :=
      ⟨_, rfl⟩
    have hn5 : d5.cols.map Prod.fst = cols3.map Prod.fst := by
      rw [hd5, coerceTotalColsNames, hn4]
    have hnodup5 : (d5.cols.map Prod.fst).Nodup := by
      rw [hn5]
      exact hnodup3
    have hc6 : coerceNumericCol d5 "longitude" latlonCell =
        Except.ok (coerceTotal d5 "longitude" latlonCell) :=
      coerceNumericColOk _ _ _ (countNameLeOne _ "longitude" hnodup5)
    obtain ⟨d6, hd6⟩ : ∃ d6, d6 = coerceTotal d5 "longitude" latlonCell :=
      ⟨_, rfl⟩
    have hn6 : d6.cols.map Prod.fst = cols3.map Prod.fst := by
      rw [hd6, coerceTotalColsNames, hn5]
    have hnodup6 : (d6.cols.map Prod.fst).Nodup := by
      rw [hn6]
      exact hnodup3
    have hlen6 : d6.cols.length = cols3.length := by
      have h := congrArg List.length hn6
      simpa using h
    have hstrip : stripStep d6 =
        Except.ok ⟨d6.cols, d6.rows.map (stripRow d6.cols)⟩ :=
      stripStepOk d6 hnodup6
    have hfinal : cleanDataFrame df =
        Except.ok ⟨d6.cols, d6.rows.map (stripRow d6.cols)⟩ := by
      rw [cleanDataFrameEq, h2]
      simp only [exceptBindOk]
      rw [hren, hc4]
      simp only [exceptBindOk]
      rw [← hd4, hc5]
      simp only [exceptBindOk]
      rw [← hd5, hc6]
      simp only [exceptBindOk]
      rw [← hd6, hstrip]
    rw [hfinal] at hcl
    injection hcl with hu
    obtain ⟨U, hU⟩ : ∃ U : DataFrame,
        U = (⟨d6.cols, d6.rows.map (stripRow d6.cols)⟩ : DataFrame) :=
      ⟨_, rfl⟩
    rw [← hu, ← hU]
    have hUcols : U.cols = d6.cols := by rw [hU]
    have hnodupU : (U.cols.map Prod.fst).Nodup := by
      rw [hUcols]
      exact hnodup6
    have hrows6 : d6.rows = rows2.map (fun r =>
        applyAt (findNameIdx "longitude" cols3) latlonCell
          (applyAt (findNameIdx "latitude" cols3) latlonCell
            (applyAt (findNameIdx "port" cols3) portCoerceCell r))) := by
      rw [hd6, coerceTotalRows,
        show findNameIdx "longitude" d5.cols = findNameIdx "longitude" cols3
          from findNameIdxCongr "longitude" d5.cols cols3 hn5,
        hd5, coerceTotalRows,
        show findNameIdx "latitude" d4.cols = findNameIdx "latitude" cols3
          from findNameIdxCongr "latitude" d4.cols cols3 hn4,
        hd4, coerceTotalRows, List.map_map, List.map_map]
      rfl
    have hUrows : U.rows = rows2.map (cleanRowPass cols3 d6.cols) := by
      rw [hU]
      show d6.rows.map (stripRow d6.cols) = _
      rw [hrows6, List.map_map]
      rfl
    have hjne : ∀ nm : String, ¬nm = "ip" →
        ∀ j, findNameIdx nm cols3 = some j → j ≠ i0 := by
      intro nm hnm j hj he
      have h3 := findNameIdxName nm cols3 j ("", DType.obj) hj
      rw [he] at h3
      rw [hname3] at h3
      exact hnm h3.symm
    have hjneq : ∀ nm nm2 : String, ¬nm = nm2 →
        ∀ j j2, findNameIdx nm cols3 = some j →
          findNameIdx nm2 cols3 = some j2 → j ≠ j2 := by
      intro nm nm2 hne j j2 hj hj2 he
      have ha := findNameIdxName nm cols3 j ("", DType.obj) hj
      have hb := findNameIdxName nm2 cols3 j2 ("", DType.obj) hj2
      rw [he] at ha
      rw [hb] at ha
      exact hne ha.symm
    have hjlt : ∀ (nm : String) (j : Nat), findNameIdx nm cols3 = some j →
        j < d6.cols.length := by
      intro nm j hj
      rw [hlen6]
      exact findNameIdxLt nm cols3 j hj
    have hdtport : ∀ j, findNameIdx "port" cols3 = some j →
        (d6.cols.getD j ("", DType.obj)).2 = DType.num := by
      intro j hj
      have h4 : (d4.cols.getD j ("", DType.obj)).2 = DType.num := by
        rw [hd4]
        exact dtypeCoerceSelf ⟨cols3, rows2⟩ "port" portCoerceCell j hj
      have h5 : d5.cols.getD j ("", DType.obj) =
          d4.cols.getD j ("", DType.obj) := by
        rw [hd5]
        refine dtypeCoerceOther d4 "latitude" latlonCell j
          (fun j2 hj2 => ?_)
        rw [findNameIdxCongr "latitude" d4.cols cols3 hn4] at hj2
        exact hjneq "latitude" "port" (by decide) j2 j hj2 hj
      have h6 : d6.cols.getD j ("", DType.obj) =
          d5.cols.getD j ("", DType.obj) := by
        rw [hd6]
        refine dtypeCoerceOther d5 "longitude" latlonCell j
          (fun j2 hj2 => ?_)
        rw [findNameIdxCongr "longitude" d5.cols cols3 hn5] at hj2
        exact hjneq "longitude" "port" (by decide) j2 j hj2 hj
      rw [h6, h5]
      exact h4
    have hdtlat : ∀ j, findNameIdx "latitude" cols3 = some j →
        (d6.cols.getD j ("", DType.obj)).2 = DType.num := by
      intro j hj
      have h5 : (d5.cols.getD j ("", DType.obj)).2 = DType.num := by
        rw [hd5]
        refine dtypeCoerceSelf d4 "latitude" latlonCell j ?_
        rw [findNameIdxCongr "latitude" d4.cols cols3 hn4]
        exact hj
      have h6 : d6.cols.getD j ("", DType.obj) =
          d5.cols.getD j ("", DType.obj) := by
        rw [hd6]
        refine dtypeCoerceOther d5 "longitude" latlonCell j
          (fun j2 hj2 => ?_)
        rw [findNameIdxCongr "longitude" d5.cols cols3 hn5] at hj2
        exact hjneq "longitude" "latitude" (by decide) j2 j hj2 hj
      rw [h6]
      exact h5
    have hdtlon : ∀ j, findNameIdx "longitude" cols3 = some j →
        (d6.cols.getD j ("", DType.obj)).2 = DType.num := by
      intro j hj
      rw [hd6]
      refine dtypeCoerceSelf d5 "longitude" latlonCell j ?_
      rw [findNameIdxCongr "longitude" d5.cols cols3 hn5]
      exact hj
    have hdtnum : ∀ (nm : String) (j : Nat), findNameIdx nm cols3 = some j →
        (d6.cols.getD j ("", DType.obj)).2 = DType.num →
        ¬(d6.cols.getD j ("", DType.num)).2 = DType.obj := by
      intro nm j hj hnum
      rw [listGetDDefault d6.cols j ("", DType.num) ("", DType.obj)
        (hjlt nm j hj), hnum]
      decide
    have hcols6i0 : d6.cols.getD i0 ("", DType.obj) =
        cols3.getD i0 ("", DType.obj) := by
      have h4 : d4.cols.getD i0 ("", DType.obj) =
          cols3.getD i0 ("", DType.obj) := by
        rw [hd4]
        refine dtypeCoerceOther ⟨cols3, rows2⟩ "port" portCoerceCell i0
          (fun j2 hj2 => ?_)
        exact hjne "port" (by decide) j2 hj2
      have h5 : d5.cols.getD i0 ("", DType.obj) =
          d4.cols.getD i0 ("", DType.obj) := by
        rw [hd5]
        refine dtypeCoerceOther d4 "latitude" latlonCell i0
          (fun j2 hj2 => ?_)
        rw [findNameIdxCongr "latitude" d4.cols cols3 hn4] at hj2
        exact hjne "latitude" (by decide) j2 hj2
      have h6 : d6.cols.getD i0 ("", DType.obj) =
          d5.cols.getD i0 ("", DType.obj) := by
        rw [hd6]
        refine dtypeCoerceOther d5 "longitude" latlonCell i0
          (fun j2 hj2 => ?_)
        rw [findNameIdxCongr "longitude" d5.cols cols3 hn5] at hj2
        exact hjne "longitude" (by decide) j2 hj2
      rw [h6, h5, h4]
    have hname6 : (d6.cols.getD i0 ("", DType.obj)).1 = "ip" := by
      rw [hcols6i0, hname3]
    have hfi6 : findNameIdx "ip" d6.cols = some i0 :=
      findNameIdxNodup "ip" d6.cols i0 hnodup6
        (by rw [hlen6, hlen3]; exact hi0lt) hname6
    have hfiU : findIpIdx U = some i0 := by
      unfold findIpIdx
      rw [hUcols]
      exact hfi6
    have hgi0 : ∀ r2 ∈ rows2,
        cellAt (cleanRowPass cols3 d6.cols r2) i0 = cellAt r2 i0 := by
      intro r2 hr2
      obtain ⟨s, hs, htrim, _⟩ := hipstr r2 hr2
      exact cleanRowPassIp cols3 d6.cols r2 i0 s
        (hjne "port" (by decide)) (hjne "latitude" (by decide))
        (hjne "longitude" (by decide)) hs htrim
    have p1 : dropInvalidIps U = U := by
      rw [dropInvalidIpsEq U i0 hfiU]
      have hfil : U.rows.filter
          (fun r => validIpCell (dtypeAt U i0) (cellAt r i0)) = U.rows := by
        rw [List.filter_eq_self]
        intro r hr
        rw [hUrows] at hr
        obtain ⟨r2, hr2, rfl⟩ := List.mem_map.mp hr
        show validIpCell (dtypeAt U i0)
          (cellAt (cleanRowPass cols3 d6.cols r2) i0) = true
        obtain ⟨s, hs, htrim, hvalid⟩ := hipstr r2 hr2
        rw [hgi0 r2 hr2, hs, validIpCellStr]
        exact hvalid
      rw [hfil]
    have p2 : dropDupIps U = Except.ok U := by
      rw [dropDupIpsEq U i0 hfiU]
      have hded : dedupAux i0 U.rows [] = U.rows := by
        refine dedupAuxEqSelf i0 U.rows []
          ?_ (fun r _ k hk => absurd hk (by simp))
        rw [hUrows, List.pairwise_map]
        refine hpw2.imp_of_mem ?_
        intro a b ha hb hR
        show cellEqv (cellAt (cleanRowPass cols3 d6.cols a) i0)
          (cellAt (cleanRowPass cols3 d6.cols b) i0) = false
        rw [hgi0 a ha, hgi0 b hb]
        exact hR
      rw [hded]
    have p3 : renameColumns U = U := by
      have hfix : renameCols U.cols = U.cols := by
        refine renameColsFixOf U.cols (fun c hc => ?_)
        have hmem : c.1 ∈ U.cols.map Prod.fst :=
          List.mem_map.mpr ⟨c, hc, rfl⟩
        rw [hUcols, hn6, hcols3] at hmem
        exact renamedNamesNotSource df.cols c.1 hmem
      show (⟨renameCols U.cols, U.rows⟩ : DataFrame) = U
      rw [hfix]
    have hcoe : ∀ (nm : String) (f : Cell → Cell),
        (∀ j, findNameIdx nm cols3 = some j →
          ((d6.cols.getD j ("", DType.obj)).2 = DType.num ∧
           ∀ r2 ∈ rows2, f (cellAt (cleanRowPass cols3 d6.cols r2) j) =
             cellAt (cleanRowPass cols3 d6.cols r2) j)) →
        coerceNumericCol U nm f = Except.ok U := by
      intro nm f hprop
      rw [coerceNumericColOk U nm f (countNameLeOne U nm hnodupU)]
      have hcongrU : ∀ nm2 : String,
          findNameIdx nm2 U.cols = findNameIdx nm2 cols3 := by
        intro nm2
        rw [hUcols]
        exact findNameIdxCongr nm2 d6.cols cols3 hn6
      have hct : coerceTotal U nm f = U := by
        unfold coerceTotal
        cases hjp : findNameIdx nm U.cols with
        | none => rfl
        | some j =>
          have hj3 : findNameIdx nm cols3 = some j := by
            rw [← hcongrU nm]
            exact hjp
          obtain ⟨hnum, hfix⟩ := hprop j hj3
          show mapNumCol U j f = U
          unfold mapNumCol
          have hnumU : (U.cols.getD j ("", DType.obj)).2 = DType.num := by
            rw [hUcols]
            exact hnum
          have hcolsfix : U.cols.set j
              ((U.cols.getD j ("", DType.obj)).1, DType.num) = U.cols := by
            refine listSetSelf U.cols j _ ("", DType.obj) ?_
            cases hq : U.cols.getD j ("", DType.obj) with
            | mk a b =>
              rw [hq] at hnumU
              have hb : b = DType.num := hnumU
              rw [hb]
          have hrowsfix : U.rows.map
              (fun r => r.set j (f (cellAt r j))) = U.rows := by
            refine mapIdOfMem U.rows (fun r hr => ?_)
            rw [hUrows] at hr
            obtain ⟨r2, hr2, rfl⟩ := List.mem_map.mp hr
            refine listSetSelf _ j _ Cell.null ?_
            exact (hfix r2 hr2).symm
          rw [hcolsfix, hrowsfix]
      rw [hct]
    have p4 : coerceNumericCol U "port" portCoerceCell = Except.ok U := by
      refine hcoe "port" portCoerceCell (fun j hj => ⟨hdtport j hj, ?_⟩)
      intro r2 hr2
      rw [cleanRowPassPort cols3 d6.cols r2 j hj
        (fun j2 hj2 => hjneq "latitude" "port" (by decide) j2 j hj2 hj)
        (fun j2 hj2 => hjneq "longitude" "port" (by decide) j2 j hj2 hj)
        (hdtnum "port" j hj (hdtport j hj))]
      exact portCoerceCellFix (cellAt r2 j)
    have p5 : coerceNumericCol U "latitude" latlonCell = Except.ok U := by
      refine hcoe "latitude" latlonCell (fun j hj => ⟨hdtlat j hj, ?_⟩)
      intro r2 hr2
      rw [cleanRowPassLat cols3 d6.cols r2 j hj
        (fun j2 hj2 => hjneq "port" "latitude" (by decide) j2 j hj2 hj)
        (fun j2 hj2 => hjneq "longitude" "latitude" (by decide) j2 j hj2 hj)
        (hdtnum "latitude" j hj (hdtlat j hj))]
      exact latlonCellFix (cellAt r2 j)
    have p6 : coerceNumericCol U "longitude" latlonCell = Except.ok U := by
      refine hcoe "longitude" latlonCell (fun j hj => ⟨hdtlon j hj, ?_⟩)
      intro r2 hr2
      rw [cleanRowPassLon cols3 d6.cols r2 j hj
        (fun j2 hj2 => hjneq "port" "longitude" (by decide) j2 j hj2 hj)
        (fun j2 hj2 => hjneq "latitude" "longitude" (by decide) j2 j hj2 hj)
        (hdtnum "longitude" j hj (hdtlon j hj))]
      exact latlonCellFix (cellAt r2 j)
    have p7 : stripStep U = Except.ok U := by
      rw [stripStepOk U hnodupU]
      have hsfix : U.rows.map (stripRow U.cols) = U.rows := by
        refine mapIdOfMem U.rows (fun r hr => ?_)
        rw [hUrows] at hr
        obtain ⟨r2, hr2, rfl⟩ := List.mem_map.mp hr
        rw [hUcols]
        exact cleanRowPassStripFix cols3 d6.cols r2
      rw [hsfix]
    rw [cleanDataFrameEq, p1, p2]
    simp only [exceptBindOk]
    rw [p3, p4]
    simp only [exceptBindOk]
    rw [p5]
    simp only [exceptBindOk]
    rw [p6]
    simp only [exceptBindOk]
    exact p7

/-- C5, witness: the amended idempotence theorem applied to a concrete
raw table (trimmed string ips, a duplicate, an invalid ip and an
alternate Country spelling); its cleaned form cleans to itself. -/
theorem claim_c5_witness :
    cleanDataFrame ⟨[("ip", DType.obj), ("country", DType.obj)],
        [[Cell.str "1.2.3.4", Cell.str "Germany"]]⟩ =
      Except.ok ⟨[("ip", DType.obj), ("country", DType.obj)],
        [[Cell.str "1.2.3.4", Cell.str "Germany"]]⟩ :=
  claim_c5_amended
    ⟨[("ip", DType.obj), ("Country", DType.obj)],
      [[Cell.str "1.2.3.4", Cell.str " Germany "],
       [Cell.str "1.2.3.4", Cell.str "DE"],
       [Cell.str "bad", Cell.str "X"]]⟩
    ⟨[("ip", DType.obj), ("country", DType.obj)],
      [[Cell.str "1.2.3.4", Cell.str "Germany"]]⟩
    (by decide) (by decide) (by decide)

end Celeste
